import Mathlib

/-!
Shallow embedding of the Marktplaats scraper API (main.py and scraper.py).

Conventions of the embedding:
* Python strings are Lean `String`s / `List Char`; character classes such
  as regex \d, \w and \s are modelled on their ASCII meaning through
  `Char.isDigit`, `Char.isAlphanum` and `Char.isWhitespace`.
* Python floats are modelled as exact rationals (`Rat`); the decimal
  strings produced by the price parser are read exactly.
* HTML documents and elements are opaque oracles: a `Page` maps a CSS
  selector string to the list of matching cards, and a `Card` maps a
  selector string to the first matching sub-element (select_one).
  Element text (get_text(strip:=true)) and attributes are data carried
  by the sub-element.
* Network requests are a function from URL to `Except String Page`;
  an `Except.error` models a requests exception / raise_for_status.
* Python `list.sort(key:=...)` is a stable sort with respect to the
  total preorder induced by the key; a stable sort is extensionally
  unique, so the structurally recursive stable insertion sort `pySort`
  is the same function and is used to model it.
-/

namespace MP

/-- Models the Python substring test `needle in hay`. -/
def strContains (hay needle : String) : Bool :=
  hay.data.tails.any (fun t => needle.data.isPrefixOf t)

/-- Models Python str.lower (ASCII case folding). -/
def pyLower (s : String) : String :=
  ⟨s.data.map Char.toLower⟩

/-- Models Python str.strip() on a character list. -/
def pyStrip (cs : List Char) : List Char :=
  ((cs.dropWhile Char.isWhitespace).reverse.dropWhile Char.isWhitespace).reverse

/-- The character class of the price regex [\d\.\,]. -/
def isPriceChar (c : Char) : Bool :=
  c.isDigit || c == '.' || c == ','

/-- Helper for `runsBy`: accumulates the current run (reversed) while
scanning. -/
def runsByAux (p : Char → Bool) : List Char → List Char → List (List Char)
  | [], acc => if acc.isEmpty then [] else [acc.reverse]
  | c :: cs, acc =>
    if p c then runsByAux p cs (c :: acc)
    else if acc.isEmpty then runsByAux p cs []
    else acc.reverse :: runsByAux p cs []

/-- The maximal runs of characters satisfying p, in order.  Models
re.findall of a one-character-class-plus pattern. -/
def runsBy (p : Char → Bool) (cs : List Char) : List (List Char) :=
  runsByAux p cs []

/-- Models re.findall of [\d\.\,]+ : the list of maximal runs of
digit/dot/comma characters. -/
def priceRuns (cs : List Char) : List (List Char) :=
  runsBy isPriceChar cs

/-- Value of a list of decimal digits. -/
def digitsVal (cs : List Char) : Nat :=
  cs.foldl (fun a c => 10 * a + (c.toNat - 48)) 0

/-- Models Python float(s) for strings made of digits and dots only
(the only shape reachable in parse_price after the replacements):
defined iff there is at most one dot and at least one digit. -/
def pyFloat? (cs : List Char) : Option Rat :=
  if cs.all (fun c => c.isDigit || c == '.') && cs.count '.' ≤ 1
      && !(cs.filter Char.isDigit).isEmpty then
    let intPart := cs.takeWhile (fun c => c != '.')
    let rest := cs.dropWhile (fun c => c != '.')
    let fracPart := rest.drop 1
    some (mkRat (digitsVal intPart * 10 ^ fracPart.length + digitsVal fracPart) (10 ^ fracPart.length))
  else
    none

/-- The comma-to-dot / dot-deletion normalisation of parse_price:
m[0].replace(".", "").replace(",", "."). -/
def normalizeRun (cs : List Char) : List Char :=
  (cs.filter (fun c => c != '.')).map (fun c => if c == ',' then '.' else c)

/-- main.py parse_price. -/
def parse_price (text : Option String) : Option Rat :=
  match text with
  | none => none
  | some s =>
    if s = "" then none
    else
      let t : List Char := (pyStrip s.data).map Char.toLower
      if ["bieden", "gratis", "n.o.t.k", "prijs op aanvraag"].any
          (fun x => strContains ⟨t⟩ x) then
        none
      else
        match priceRuns t with
        | [] => none
        | m :: _ => pyFloat? (normalizeRun m)

/-- Match of m?\d+ followed by one of dot, slash or end of string;
returns the captured group. Used at a position just after a dash. -/
def digitsThenTerm (cs : List Char) : Option (List Char) :=
  let ds := cs.takeWhile Char.isDigit
  let rest := cs.dropWhile Char.isDigit
  if ds.isEmpty then none
  else
    match rest with
    | [] => some ds
    | c :: _ => if c == '.' || c == '/' then some ds else none

/-- Match of (m?\d+)(?:\.|$|/) at the start of cs. -/
def matchAfterDash : List Char → Option (List Char)
  | 'm' :: rest => (digitsThenTerm rest).map (fun d => 'm' :: d)
  | cs => digitsThenTerm cs

/-- Leftmost match of the regex -(m?\d+)(?:\.|$|/) (re.search). -/
def searchDashId : List Char → Option (List Char)
  | [] => none
  | '-' :: rest =>
    (match matchAfterDash rest with
     | some g => some g
     | none => searchDashId rest)
  | _ :: rest => searchDashId rest

/-- Leftmost match of the regex /v/(\d+) (re.search). -/
def searchVId : List Char → Option (List Char)
  | '/' :: 'v' :: '/' :: rest =>
    (let ds := rest.takeWhile Char.isDigit
     if ds.isEmpty then searchVId ('v' :: '/' :: rest) else some ds)
  | _ :: rest => searchVId rest
  | [] => none

/-- re.sub of \W+ by the empty string: keep the word characters. -/
def wordCharsOnly (cs : List Char) : List Char :=
  cs.filter (fun c => c.isAlphanum || c == '_')

/-- main.py extract_id. -/
def extract_id (url : String) : String :=
  match searchDashId url.data with
  | some g => ⟨g⟩
  | none =>
    match searchVId url.data with
    | some g => ⟨g⟩
    | none =>
      let w := wordCharsOnly url.data
      ⟨w.drop (w.length - 24)⟩

example : parse_price (some "€ 1.234,56") = some (1234.56 : Rat) := by
  have h : parse_price (some "€ 1.234,56") = some (mkRat 123456 100) := by decide
  rw [h]
  norm_num
example : parse_price (some "Bieden") = none := by decide
example : parse_price (some "") = none := by decide
example : parse_price (some "gratis af te halen") = none := by decide
example : parse_price (some "ca. 50 euro") = none := by decide
example : parse_price (some "€ 50") = some 50 := by decide
example : extract_id "https://www.marktplaats.nl/a/foo-m123456789.html" = "m123456789" := by decide
example : extract_id "https://www.marktplaats.nl/v/123456789" = "123456789" := by decide
example : extract_id "httpX" = "httpX" := by decide

/-! ## Dutch-English translation helpers (main.py) -/

/-- The word-character class of regex \w (ASCII model). -/
def isWordChar (c : Char) : Bool :=
  c.isAlphanum || c == '_'

/-- Models re.findall of \b\w+\b : the maximal runs of word characters. -/
def wordRuns (cs : List Char) : List (List Char) :=
  runsBy isWordChar cs

/-- Models Python " ".join. -/
def joinSpace : List String → String
  | [] => ""
  | [s] => s
  | s :: rest => s ++ " " ++ joinSpace rest

/-- Models Python str.isupper: at least one cased character and no
lowercase one (cased modelled as ASCII letters). -/
def pyIsUpper (cs : List Char) : Bool :=
  cs.any (fun c => c.isUpper || c.isLower) && cs.all (fun c => !c.isLower)

/-- Helper of `pyIsTitle`: scans with the previous-character-cased flag
and whether a cased character has been seen. -/
def pyIsTitleAux : List Char → Bool → Bool → Bool
  | [], _, found => found
  | c :: cs, prevCased, found =>
    if c.isUpper then (if prevCased then false else pyIsTitleAux cs true true)
    else if c.isLower then (if prevCased then pyIsTitleAux cs true true else false)
    else pyIsTitleAux cs false found

/-- Models Python str.istitle. -/
def pyIsTitle (cs : List Char) : Bool :=
  pyIsTitleAux cs false false

/-- Helper of `pyTitleCase`. -/
def pyTitleCaseAux : List Char → Bool → List Char
  | [], _ => []
  | c :: cs, prevCased =>
    if c.isAlpha then (if prevCased then c.toLower else c.toUpper) :: pyTitleCaseAux cs true
    else c :: pyTitleCaseAux cs false

/-- Models Python str.title. -/
def pyTitleCase (cs : List Char) : List Char :=
  pyTitleCaseAux cs false

/-- Models Python str.upper (ASCII). -/
def pyUpper (cs : List Char) : List Char :=
  cs.map Char.toUpper

/-- The translations dictionary of translate_dutch_title_to_english, in
insertion order. -/
def titleTranslations : List (String × String) := [
  ("stoel", "chair"), ("stoelen", "chairs"),
  ("fauteuil", "armchair"), ("fauteuils", "armchairs"),
  ("tafel", "table"), ("tafels", "tables"),
  ("salontafel", "coffee table"), ("eettafel", "dining table"),
  ("bijzettafel", "side table"), ("bureau", "desk"),
  ("kast", "cabinet"), ("kasten", "cabinets"),
  ("lamp", "lamp"), ("lampen", "lamps"),
  ("hanglamp", "pendant lamp"), ("vloerlamp", "floor lamp"),
  ("bank", "sofa"), ("banken", "sofas"),
  ("spiegel", "mirror"), ("spiegels", "mirrors"),
  ("kruk", "stool"), ("krukken", "stools"),
  ("rek", "rack"), ("rekken", "racks"), ("wandrek", "wall rack"),
  ("teak", "teak wood"), ("teakhouk", "teak wood"), ("teakhout", "teak wood"),
  ("hout", "wood"), ("houten", "wooden"), ("massief", "solid"),
  ("fluweel", "velvet"), ("leder", "leather"), ("leer", "leather"),
  ("metaal", "metal"), ("ijzer", "iron"), ("staal", "steel"),
  ("glas", "glass"), ("glazen", "glass"),
  ("vintage", "vintage"), ("retro", "retro"),
  ("industrieel", "industrial"), ("industriële", "industrial"),
  ("jaren 60", "1960s"), ("jaren 70", "1970s"),
  ("scandinavisch", "Scandinavian"), ("minimalistisch", "minimalist"),
  ("modern", "modern"), ("antiek", "antique"), ("klassiek", "classic"),
  ("design", "design"),
  ("met", "with"), ("zonder", "without"),
  ("groot", "large"), ("kleine", "small"),
  ("nieuwe", "new"), ("nieuw", "new"),
  ("oude", "old"), ("oud", "old"),
  ("originele", "original"), ("origineel", "original"),
  ("prachtige", "beautiful"), ("prachtig", "beautiful"),
  ("unieke", "unique"), ("uniek", "unique"),
  ("betrouwbaar", "reliable"), ("nauwkeurig", "accurate"),
  ("weegschaal", "scale"), ("dienblad", "tray"), ("bekers", "cups"),
  ("laden", "drawers"), ("planken", "shelves"), ("vormig", "shaped"),
  ("hoekbureau", "corner desk"), ("klaptafel", "folding table"),
  ("rond", "round"), ("stapelbaar", "stackable"),
  ("inklapbare", "foldable"), ("tuintafel", "garden table")]

/-- One word of translate_dutch_title_to_english: dictionary lookup on
the lowercased word, preserving the capitalisation pattern. -/
def translateTitleWord (w : List Char) : List Char :=
  match titleTranslations.lookup (pyLower ⟨w⟩) with
  | none => w
  | some t =>
    if pyIsUpper w then pyUpper t.data
    else if pyIsTitle w then pyTitleCase t.data
    else t.data

/-- State machine of `subDash`.  The second argument is true just after
a replaced match, where trailing \s* is still being consumed; the third
is the pending run of whitespace (reversed) that will be dropped if a
dash follows and emitted unchanged otherwise. -/
def subDashAux : List Char → Bool → List Char → List Char
  | [], afterDash, pend => if afterDash then [] else pend.reverse
  | c :: cs, afterDash, pend =>
    if afterDash then
      if c.isWhitespace then subDashAux cs true []
      else if c == '-' then ' ' :: '-' :: ' ' :: subDashAux cs true []
      else c :: subDashAux cs false []
    else
      if c == '-' then ' ' :: '-' :: ' ' :: subDashAux cs true []
      else if c.isWhitespace then subDashAux cs false (c :: pend)
      else pend.reverse ++ c :: subDashAux cs false []

/-- Models re.sub of the pattern \s*-\s* by the string " - ": each
leftmost match (the whitespace around a dash, greedily) becomes
" - ". -/
def subDash (cs : List Char) : List Char :=
  subDashAux cs false []

/-- State machine of `squeezeSpaces`: the flag records being inside a
whitespace run whose first character was already replaced. -/
def squeezeSpacesAux : List Char → Bool → List Char
  | [], _ => []
  | c :: cs, inWs =>
    if c.isWhitespace then
      if inWs then squeezeSpacesAux cs true
      else ' ' :: squeezeSpacesAux cs true
    else c :: squeezeSpacesAux cs false

/-- Models re.sub of the pattern \s+ by a single space. -/
def squeezeSpaces (cs : List Char) : List Char :=
  squeezeSpacesAux cs false

/-- main.py translate_dutch_title_to_english.  The final Python line
`result if result != dutch_title else dutch_title` returns the same
string value in both branches, so the embedding returns the cleaned
result directly. -/
def translate_dutch_title_to_english (dutch_title : String) : String :=
  if dutch_title = "" then dutch_title
  else
    let words := wordRuns dutch_title.data
    let joined := joinSpace (words.map (fun w => (⟨translateTitleWord w⟩ : String)))
    ⟨pyStrip (squeezeSpaces (subDash joined.data))⟩

/-- The price_translations dictionary of translate_price_text_to_english,
in insertion order. -/
def priceTranslations : List (String × String) := [
  ("bieden", "Negotiable"), ("gratis", "Free"),
  ("vraagprijs", "Asking price"), ("vanaf", "From"),
  ("per", "per"), ("stuk", "piece"), ("set", "set")]

/-- main.py translate_price_text_to_english. -/
def translate_price_text_to_english (s : String) : String :=
  if s = "" then s
  else
    match priceTranslations.find? (fun p => strContains (pyLower s) p.1) with
    | some p => p.2
    | none => s

example : translate_dutch_title_to_english "Prachtige teak salontafel" =
    "Beautiful teak wood coffee table" := by decide
example : translate_dutch_title_to_english "STOEL - vintage" =
    "CHAIR vintage" := by decide
example : translate_price_text_to_english "Bieden" = "Negotiable" := by decide
example : translate_price_text_to_english "€ 25,00" = "€ 25,00" := by decide

/-! ## The HTML / HTTP model -/

/-- A sub-element found by select_one: its stripped text and its
attributes. -/
structure SubElem where
  text : String
  attrs : List (String × String)
deriving DecidableEq

/-- A listing card: an oracle mapping a CSS selector to the first
matching sub-element, if any (select_one). -/
structure Card where
  sel : String → Option SubElem

/-- A fetched result page: an oracle mapping a CSS selector to the list
of matching cards (select). -/
structure Page where
  select : String → List Card

/-- element.get(key): attribute lookup. -/
def attrGet (e : SubElem) (k : String) : Option String :=
  (e.attrs.find? (fun p => p.1 == k)).map Prod.snd

/-- A network layer: URL to page, or a raised exception. -/
def Fetch : Type := String → Except String Page

/-- The SEL table of main.py. -/
def SEL_card : String := "li.mp-Listing"
def SEL_title : String := "[data-testid=\x27listing-title\x27]"
def SEL_price : String := "[data-testid=\x27ad-price\x27]"
def SEL_location : String := "[data-testid=\x27location\x27]"
def SEL_date : String := "[data-testid=\x27date\x27]"
def SEL_link : String := "a[href]"
def SEL_image : String := "img"
def SEL_desc : String := "[data-testid=\x27description\x27]"

/-- The alternative card selectors used by /scrape, /batch-search and
/smart-search. -/
def altSelectorsMain : List String :=
  ["li[data-testid=\x27listing-item\x27]", "article[data-testid=\x27listing\x27]",
   ".hz-Listing", ".mp-listing-item", "li.mp-Listing-item"]

/-- The alternative card selectors used by /style-collection. -/
def altSelectorsStyle : List String :=
  ["li[data-testid=\x27listing-item\x27]", "article[data-testid=\x27listing\x27]",
   ".hz-Listing"]

/-- The for-loop over alternative selectors: the first selector with a
non-empty match wins; if all are empty the result is empty. -/
def firstNonemptySelect (pg : Page) : List String → List Card
  | [] => []
  | s :: rest =>
    let cs := pg.select s
    if cs.isEmpty then firstNonemptySelect pg rest else cs

/-- Card selection with the fallback cascade: the primary selector
li.mp-Listing first, the alternatives only when it matches nothing. -/
def selectCards (pg : Page) (alts : List String) : List Card :=
  let cards := pg.select SEL_card
  if cards.isEmpty then firstNonemptySelect pg alts else cards

def BASE : String := "https://www.marktplaats.nl"

/-- Models Python str.startswith. -/
def pyStartsWith (s pre : String) : Bool :=
  pre.data.isPrefixOf s.data

/-- Models urllib.parse.urljoin(BASE, href) for the href shapes the
site emits (path references against the authority-only base). -/
def urljoin (base rel : String) : String :=
  if pyStartsWith rel "/" then base ++ rel else base ++ "/" ++ rel

/-- f-string url of a result page. -/
def pageUrl (query : String) (p : Nat) : String :=
  BASE ++ "/q/" ++ query ++ "/?p=" ++ toString p

/-- The select_one fallback chain (Python `or` on elements): the first
selector that matches supplies the element. -/
def firstSel (c : Card) : List String → Option SubElem
  | [] => none
  | s :: rest =>
    match c.sel s with
    | some e => some e
    | none => firstSel c rest

/-- An item dictionary of /scrape, /batch-search and /smart-search. -/
structure Item where
  id : String
  url : String
  title : String
  price_text : Option String
  price_eur : Option Rat
  location : Option String
  posted_at : Option String
  image_url : Option String
  description : Option String
deriving DecidableEq

/-- Field selector chains of /scrape and /batch-search. -/
def titleSelsMain : List String := [SEL_title, "h3", ".hz-Listing-title"]
def priceSelsMain : List String := [SEL_price, ".hz-Listing-price", "[data-testid*=\x27price\x27]"]
def locSelsMain : List String := [SEL_location, ".hz-Listing-location", "[data-testid*=\x27location\x27]"]
def dateSelsMain : List String := [SEL_date, ".hz-Listing-date", "[data-testid*=\x27date\x27]"]
def imgSelsMain : List String := [SEL_image, "img"]
def descSelsMain : List String := [SEL_desc, ".hz-Listing-description", "[data-testid*=\x27desc\x27]"]

/-- The card-to-item extraction of /scrape and /batch-search; `none`
models the `continue` on a card with no link element or an empty href. -/
def buildItemMain (c : Card) : Option Item :=
  match c.sel SEL_link with
  | none => none
  | some a =>
    let href := (attrGet a "href").getD ""
    if href = "" then none
    else
      let full_url := if pyStartsWith href "http" then href else urljoin BASE href
      let title_el := firstSel c titleSelsMain
      let price_el := firstSel c priceSelsMain
      let loc_el := firstSel c locSelsMain
      let date_el := firstSel c dateSelsMain
      let img_el := firstSel c imgSelsMain
      let desc_el := firstSel c descSelsMain
      some {
        id := extract_id full_url
        url := full_url
        title := match title_el with
          | some e => translate_dutch_title_to_english e.text
          | none => ""
        price_text := price_el.map (fun e => translate_price_text_to_english e.text)
        price_eur := match price_el with
          | some e => parse_price (some e.text)
          | none => none
        location := loc_el.map SubElem.text
        posted_at := date_el.map SubElem.text
        image_url := match img_el with
          | some e => if (attrGet e "src").isSome then attrGet e "src" else none
          | none => none
        description := desc_el.map SubElem.text }

/-- One loop iteration over the cards: skip a skipped card, skip a card
whose id is already in the seen set, else record id and item. -/
def dedupStep {α : Type} (build : Card → Option α) (getId : α → String)
    (st : List String × List α) (c : Card) : List String × List α :=
  match build c with
  | none => st
  | some it =>
    if st.1.contains (getId it) then st
    else (getId it :: st.1, st.2 ++ [it])

/-- The price-sort key comparator: the total preorder induced by the
Python key (price is None, price or 1e12).  Priced items come first,
lowest price first; the 1e12 sentinel is never compared against a real
price because the first tuple component already separates them. -/
def priceKeyLe (a b : Option Rat) : Bool :=
  match a, b with
  | none, none => true
  | none, some _ => false
  | some _, none => true
  | some p, some q => decide (p ≤ q)

/-- The price-sort comparator on items. -/
def keyLe (a b : Item) : Bool :=
  priceKeyLe a.price_eur b.price_eur

/-- Stable insertion of an element into a sorted list: it lands before
the first element it compares le to, hence before later-arriving
equals. -/
def insertLe {α : Type} (le : α → α → Bool) (a : α) : List α → List α
  | [] => [a]
  | b :: bs => if le a b then a :: b :: bs else b :: insertLe le a bs

/-- Python list.sort(key:=...) is the stable sort with respect to the
total preorder induced by the key; a stable sort is extensionally
unique, so this structurally recursive stable insertion sort is the
same function. -/
def pySort {α : Type} (le : α → α → Bool) : List α → List α
  | [] => []
  | a :: xs => insertLe le a (pySort le xs)

/-- An endpoint outcome: the normal payload, or the JSON error object
produced by the except-branch. -/
inductive ApiResult (α : Type) where
  | ok (payload : α)
  | err (error details : String)
deriving DecidableEq

/-- Payload of a successful /scrape. -/
structure ScrapePayload where
  query : String
  pages : Nat
  count : Nat
  items : List Item
deriving DecidableEq

/-- The page loop shared by /scrape and /smart-search: fetch each page
in order, abort on a raised exception, fold the cards of each page into
the seen/items state. -/
def pagesLoop (fetch : Fetch) (build : Card → Option Item) (query : String) :
    List Nat → List String × List Item → Except String (List String × List Item)
  | [], st => .ok st
  | p :: ps, st =>
    match fetch (pageUrl query p) with
    | .error e => .error e
    | .ok pg =>
      let cards := selectCards pg altSelectorsMain
      pagesLoop fetch build query ps (cards.foldl (dedupStep build Item.id) st)

/-- GET /scrape. -/
def scrape (fetch : Fetch) (query : String) (pages : Nat) : ApiResult ScrapePayload :=
  match pagesLoop fetch buildItemMain query (List.range' 1 pages) ([], []) with
  | .error e => .err "An error occurred while scraping" e
  | .ok st =>
    let items := pySort keyLe st.2
    .ok { query := query, pages := pages, count := items.length, items := items }

/-! ## POST /batch-search -/

/-- Per-query entry of the batch results object. -/
structure QueryResult where
  count : Nat
  items : List Item
deriving DecidableEq

/-- Payload of a successful /batch-search. -/
structure BatchPayload where
  total_queries : Nat
  total_items : Nat
  results : List (String × QueryResult)
deriving DecidableEq

/-- Python list slice l[:n], including the negative-bound case. -/
def pySliceTo {α : Type} (n : Int) (l : List α) : List α :=
  if 0 ≤ n then l.take n.toNat else l.take (l.length - (-n).toNat)

/-- Python dict assignment d[k] = v: replaces in place a present key,
appends a new one. -/
def dictInsert {α : Type} (k : String) (v : α) (d : List (String × α)) :
    List (String × α) :=
  if d.any (fun p => p.1 == k) then
    d.map (fun p => if p.1 == k then (k, v) else p)
  else d ++ [(k, v)]

/-- The single-query page fetch of /batch-search: one result page,
cards truncated by `max_results_per_query or 20`. -/
def batchQueryItems (fetch : Fetch) (maxRes : Option Int) (query : String) :
    Except String (List Item) :=
  match fetch (pageUrl query 1) with
  | .error e => .error e
  | .ok pg =>
    let cards := selectCards pg altSelectorsMain
    let bound : Int := match maxRes with
      | none => 20
      | some n => if n = 0 then 20 else n
    .ok ((pySliceTo bound cards).foldl (dedupStep buildItemMain Item.id) ([], [])).2

/-- The query loop of /batch-search, threading the results dict and the
running total. -/
def batchGo (fetch : Fetch) (maxRes : Option Int) :
    List String → List (String × QueryResult) → Nat →
    Except String (List (String × QueryResult) × Nat)
  | [], acc, tot => .ok (acc, tot)
  | q :: qs, acc, tot =>
    match batchQueryItems fetch maxRes q with
    | .error e => .error e
    | .ok raw =>
      let items := pySort keyLe raw
      batchGo fetch maxRes qs (dictInsert q ⟨items.length, items⟩ acc) (tot + items.length)

/-- POST /batch-search. -/
def batch_search (fetch : Fetch) (queries : List String) (maxRes : Option Int) :
    ApiResult BatchPayload :=
  match batchGo fetch maxRes queries [] 0 with
  | .error e => .err "An error occurred during batch search" e
  | .ok (res, tot) => .ok ⟨queries.length, tot, res⟩

/-! ## parse_natural_language_query -/

/-- The furniture_translations dictionary, in insertion order. -/
def furnitureTranslations : List (String × List String) := [
  ("chair", ["stoel", "stoelen"]),
  ("armchair", ["fauteuil", "fauteuils"]),
  ("sofa", ["bank", "banken"]),
  ("couch", ["bank", "banken"]),
  ("sideboard", ["dressoir", "dressoirs"]),
  ("cabinet", ["kast", "kasten"]),
  ("table", ["tafel", "tafels"]),
  ("dining table", ["eettafel", "eettafels"]),
  ("coffee table", ["salontafel", "salontafels"]),
  ("end table", ["bijzettafel", "bijzettafels"]),
  ("side table", ["bijzettafel", "bijzettafels"]),
  ("lamp", ["lamp", "lampen"]),
  ("floor lamp", ["vloerlamp", "vloerlampen"]),
  ("pendant lamp", ["hanglamp", "hanglampen"]),
  ("mirror", ["spiegel", "spiegels"]),
  ("stool", ["kruk", "krukken"]),
  ("desk", ["bureau", "bureaus"]),
  ("shelf", ["plank", "planken"]),
  ("bookshelf", ["boekenkast", "boekenkasten"]),
  ("painting", ["schilderij", "schilderijen"]),
  ("artwork", ["kunstwerk", "kunstwerken"]),
  ("rug", ["vloerkleed", "vloerkleden", "tapijt", "tapijten"])]

/-- The style_translations dictionary, in insertion order. -/
def styleTranslations : List (String × List String) := [
  ("mid century", ["teak"]),
  ("scandi", ["scandinavisch"]),
  ("scandinavian", ["scandinavisch"]),
  ("japandi", ["japandi"]),
  ("industrial", ["industrieel"]),
  ("vintage", ["vintage"]),
  ("boho", ["rotan"]),
  ("modern", ["modern"]),
  ("antique", ["antiek"]),
  ("minimalist", ["minimalistisch"]),
  ("rustic", ["landelijk"])]

/-- The color_translations dictionary, in insertion order. -/
def colorTranslations : List (String × List String) := [
  ("red", ["rood", "rode"]),
  ("blue", ["blauw", "blauwe"]),
  ("green", ["groen", "groene"]),
  ("yellow", ["geel", "gele"]),
  ("orange", ["oranje"]),
  ("purple", ["paars", "paarse"]),
  ("pink", ["roze"]),
  ("black", ["zwart", "zwarte"]),
  ("white", ["wit", "witte"]),
  ("grey", ["grijs", "grijze"]),
  ("gray", ["grijs", "grijze"]),
  ("brown", ["bruin", "bruine"]),
  ("beige", ["beige"]),
  ("cream", ["crème", "creme"]),
  ("gold", ["goud", "gouden"]),
  ("silver", ["zilver", "zilveren"]),
  ("bronze", ["brons", "bronzen"]),
  ("copper", ["koper", "koperen"]),
  ("ivory", ["ivoor", "ivoren"]),
  ("teal", ["turquoise"]),
  ("burgundy", ["bordeaux"]),
  ("mustard", ["mosterd", "mosterdgeel"]),
  ("terracotta", ["terracotta"]),
  ("olive", ["olijf", "olijfgroen"])]

/-- The dutch_cities list, in order. -/
def dutchCities : List String :=
  ["amsterdam", "rotterdam", "utrecht", "eindhoven", "tilburg", "groningen",
   "almere", "breda", "nijmegen", "haarlem", "enschede", "apeldoorn", "arnhem",
   "zaanstad", "den haag", "haag", "maastricht", "dordrecht", "leiden", "zoetermeer"]

/-- Match of literal-prefix, one-or-more digits (greedy), literal-suffix
at the start of cs; returns the digit group. -/
def matchPreDigitsPost (pre post : List Char) (cs : List Char) : Option (List Char) :=
  if pre.isPrefixOf cs then
    let rest := cs.drop pre.length
    let ds := rest.takeWhile Char.isDigit
    if ds.isEmpty then none
    else if post.isPrefixOf (rest.drop ds.length) then some ds else none
  else none

/-- Leftmost match (re.search) of a pattern of the shape
literal (\d+) literal. -/
def searchPreDigitsPost (pre post : List Char) : List Char → Option (List Char)
  | [] => none
  | c :: rest =>
    match matchPreDigitsPost pre post (c :: rest) with
    | some ds => some ds
    | none => searchPreDigitsPost pre post rest

/-- The price_patterns list, in order, as literal-prefix and
literal-suffix around the (\d+) group. -/
def pricePatterns : List (String × String) :=
  [("max ", " eur"), ("onder ", " eur"), ("tot ", " eur"),
   ("max ", ""), ("", " eur max"), ("maximum ", "")]

/-- The max-price extraction loop: the first pattern that matches
anywhere in the lowercased query wins. -/
def extractMaxPrice (ql : List Char) : Option Nat :=
  pricePatterns.findSome?
    (fun pp => (searchPreDigitsPost pp.1.data pp.2.data ql).map digitsVal)

/-- Leftmost match (re.search) of (\d+)\s*km. -/
def searchKm : List Char → Option Nat
  | [] => none
  | c :: rest =>
    (let ds := (c :: rest).takeWhile Char.isDigit
     if ds.isEmpty then searchKm rest
     else
       let after := ((c :: rest).drop ds.length).dropWhile Char.isWhitespace
       if "km".data.isPrefixOf after then some (digitsVal ds) else searchKm rest)

/-- The dictionary returned by parse_natural_language_query (after the
location/radius defaulting at the end of the function). -/
structure ParsedQuery where
  search_terms : String
  max_price_eur : Option Nat
  min_price_eur : Option Nat
  location : String
  radius_km : Nat
  item_type : Option String
  style : Option String
deriving DecidableEq

/-- main.py parse_natural_language_query. -/
def parse_natural_language_query (query : String) : ParsedQuery :=
  let query_lower := pyLower query
  let ql := query_lower.data
  let max_price := extractMaxPrice ql
  let location? := dutchCities.find? (fun city => strContains query_lower city)
  let radius? := searchKm ql
  let std :=
    if strContains query_lower "design lamp" then
      (["hanglamp", "vloerlamp"], some "lamp", (none : Option String))
    else if strContains query_lower "industrial style" then
      (["industrieel", "staal"], none, some "industrial")
    else
      let furn := furnitureTranslations.find? (fun p => strContains query_lower p.1)
      let styl := styleTranslations.find? (fun p => strContains query_lower p.1)
      let col := colorTranslations.find? (fun p => strContains query_lower p.1)
      let parts :=
        (match furn with | some p => [p.2.headD ""] | none => []) ++
        (match styl with | some p => p.2 | none => []) ++
        (match col with | some p => [p.2.headD ""] | none => [])
      (parts, furn.map (fun p => p.2.headD ""), styl.map Prod.fst)
  let parts :=
    if std.1.isEmpty then
      if strContains query_lower "living room" then ["woonkamer"]
      else if strContains query_lower "bedroom" then ["slaapkamer"]
      else if strContains query_lower "dining room" then ["eetkamer"]
      else [query]
    else std.1
  { search_terms := joinSpace (parts.take 3)
    max_price_eur := max_price
    min_price_eur := none
    location := location?.getD "amsterdam"
    radius_km := radius?.getD 10
    item_type := std.2.1
    style := std.2.2 }

example : (parse_natural_language_query "vintage red chair").search_terms =
    "stoel vintage rood" := by decide
example : (parse_natural_language_query "teak sideboard max 150 eur").max_price_eur =
    some 150 := by decide
example : (parse_natural_language_query "something odd").search_terms =
    "something odd" := by decide

/-! ## POST /smart-search -/

/-- The title selector chain of /smart-search (it differs from /scrape:
the class fallback comes before h3 and a fourth probe is added). -/
def titleSelsSmart : List String :=
  [SEL_title, ".hz-Listing-title", "h3", "[data-testid*=\x27title\x27]"]

/-- The card-to-item extraction of /smart-search. -/
def buildItemSmart (c : Card) : Option Item :=
  match c.sel SEL_link with
  | none => none
  | some a =>
    let href := (attrGet a "href").getD ""
    if href = "" then none
    else
      let full_url := if pyStartsWith href "http" then href else urljoin BASE href
      let title_el := firstSel c titleSelsSmart
      let price_el := firstSel c priceSelsMain
      let loc_el := firstSel c locSelsMain
      let date_el := firstSel c dateSelsMain
      let img_el := firstSel c imgSelsMain
      let desc_el := firstSel c descSelsMain
      some {
        id := extract_id full_url
        url := full_url
        title := match title_el with
          | some e => translate_dutch_title_to_english e.text
          | none => ""
        price_text := price_el.map (fun e => translate_price_text_to_english e.text)
        price_eur := match price_el with
          | some e => parse_price (some e.text)
          | none => none
        location := loc_el.map SubElem.text
        posted_at := date_el.map SubElem.text
        image_url := match img_el with
          | some e => if (attrGet e "src").isSome then attrGet e "src" else none
          | none => none
        description := desc_el.map SubElem.text }

/-- The max-price filter of /smart-search.  The surrounding Python
`if parsed_query.get("max_price_eur"):` is a truthiness test, so the
filter runs only for a present non-zero limit; it keeps an item whose
price_eur is None or at most the limit. -/
def smartMaxFilter (maxPrice : Option Nat) (items : List Item) : List Item :=
  match maxPrice with
  | some m =>
    if m ≠ 0 then
      items.filter (fun it =>
        match it.price_eur with
        | none => true
        | some p => decide (p ≤ mkRat m 1))
    else items
  | none => items

/-- The min-price filter of /smart-search (min_price_eur is never set
by the parser, but the code path exists). -/
def smartMinFilter (minPrice : Option Nat) (items : List Item) : List Item :=
  match minPrice with
  | some m =>
    if m ≠ 0 then
      items.filter (fun it =>
        match it.price_eur with
        | none => false
        | some p => decide (mkRat m 1 ≤ p))
    else items
  | none => items

/-- An item of the /smart-search response, reshaped to the Style Genie
specification: exactly the fields title, price, price_text, currency,
url, image, source, location, distance_km and posted_at. -/
structure FormattedItem where
  title : String
  price : Option Rat
  price_text : Option String
  currency : String
  url : String
  image : Option String
  source : String
  location : Option String
  distance_km : Option Rat
  posted_at : Option String
deriving DecidableEq

/-- Python str.endswith on the embedding. -/
def pyEndsWith (s suf : String) : Bool :=
  suf.data.isSuffixOf s.data

/-- Fuel-driven helper of `pyReplace` (the fuel starts at the length of
the subject, which suffices for a non-empty pattern). -/
def replaceAllFuel (pat repl : List Char) : Nat → List Char → List Char
  | 0, cs => cs
  | _ + 1, [] => []
  | fuel + 1, c :: rest =>
    if pat.isPrefixOf (c :: rest) then
      repl ++ replaceAllFuel pat repl fuel ((c :: rest).drop pat.length)
    else c :: replaceAllFuel pat repl fuel rest

/-- Python str.replace: replaces every occurrence, left to right. -/
def pyReplace (s pat repl : String) : String :=
  ⟨replaceAllFuel pat.data repl.data s.data.length s.data⟩

/-- The location post-processing of the /smart-search formatter: strip a
", Nederland" suffix, map "heel nederland" to "Netherlands". -/
def formatLocation : Option String → Option String
  | none => none
  | some s =>
    if s = "" then some s
    else if pyEndsWith (pyLower s) ", nederland" then
      some (pyReplace (pyReplace s ", Nederland" "") ", nederland" "")
    else if pyLower s = "heel nederland" then some "Netherlands"
    else some s

/-- The per-item reshaping of /smart-search. -/
def formatItem (it : Item) : FormattedItem :=
  { title := translate_dutch_title_to_english it.title
    price := it.price_eur
    price_text := it.price_text.map translate_price_text_to_english
    currency := "EUR"
    url := it.url
    image := it.image_url
    source := "Marktplaats"
    location := formatLocation it.location
    distance_km := none
    posted_at := it.posted_at }

/-- The parsed_query object reshaped for the response. -/
structure FormattedParsedQuery where
  item_type : Option String
  style : Option String
  min_price : Option Nat
  max_price : Option Nat
  city : String
  radius_km : Nat
deriving DecidableEq

/-- The item_type_mapping dictionary of /smart-search. -/
def itemTypeMapping : List (String × String) :=
  [("stoel", "chair"), ("tafel", "table"), ("lamp", "lamp"),
   ("bank", "sofa"), ("kast", "cabinet"), ("fauteuil", "chair")]

/-- Payload of a successful /smart-search. -/
structure SmartPayload where
  parsed_query : FormattedParsedQuery
  items : List FormattedItem
  suggestions : Option (List String)
deriving DecidableEq

/-- Models Python str.split() without arguments: the whitespace-separated
words. -/
def pyWords (s : String) : List (List Char) :=
  runsBy (fun c => !c.isWhitespace) s.data

/-- The canned suggestions of /smart-search. -/
def suggestionList : List String :=
  ["vintage style", "under €150", "mid century modern", "industrial look",
   "in Rotterdam", "scandinavian design"]

/-- POST /smart-search. -/
def smart_search (fetch : Fetch) (query : String) : ApiResult SmartPayload :=
  let parsed := parse_natural_language_query query
  let search_terms := parsed.search_terms
  match pagesLoop fetch buildItemSmart search_terms (List.range' 1 2) ([], []) with
  | .error e => .err "An error occurred during smart search" e
  | .ok st =>
    let filtered := smartMinFilter parsed.min_price_eur
      (smartMaxFilter parsed.max_price_eur st.2)
    let sorted := pySort keyLe filtered
    let formatted := (sorted.take 20).map formatItem
    let english_item_type := parsed.item_type.map
      (fun t => (itemTypeMapping.lookup t).getD t)
    let fpq : FormattedParsedQuery :=
      { item_type := english_item_type
        style := parsed.style
        min_price := parsed.min_price_eur
        max_price := parsed.max_price_eur
        city := if parsed.location = "" then "Amsterdam" else parsed.location
        radius_km := parsed.radius_km }
    let anyTruthy := parsed.style.isSome ||
      (match parsed.max_price_eur with | some m => m != 0 | none => false) ||
      parsed.location != ""
    let suggestions :=
      if (pyWords query).length ≤ 2 && !anyTruthy then some suggestionList
      else none
    .ok { parsed_query := fpq, items := formatted, suggestions := suggestions }

/-! ## POST /style-collection -/

/-- An item of a style collection category. -/
structure StyleItem where
  id : String
  url : String
  title : String
  price_text : String
  location : String
  image_url : Option String
  style_match : String
  furniture_type : String
  price_eur : Option Rat
deriving DecidableEq

/-- The price-sort comparator on style items. -/
def keyLeS (a b : StyleItem) : Bool :=
  priceKeyLe a.price_eur b.price_eur

/-- One entry of the style_patterns table. -/
structure StylePattern where
  search_terms : List String
  furniture_types : List (String × List String)
deriving DecidableEq

/-- The style_patterns table, in insertion order. -/
def style_patterns : List (String × StylePattern) := [
  ("mid century", ⟨["teak", "mcm", "jaren 60"],
    [("chairs", ["stoel", "fauteuil"]), ("tables", ["tafel", "salontafel"]),
     ("storage", ["kast", "dressoir"]), ("lighting", ["lamp"])]⟩),
  ("vintage", ⟨["vintage", "retro"],
    [("chairs", ["stoel", "fauteuil"]), ("tables", ["tafel"]),
     ("storage", ["kast"]), ("lighting", ["lamp"]),
     ("decor", ["spiegel", "schilderij"])]⟩),
  ("industrial", ⟨["industrieel", "metaal"],
    [("chairs", ["stoel"]), ("tables", ["tafel"]), ("storage", ["kast"]),
     ("lighting", ["lamp"])]⟩),
  ("scandi", ⟨["licht hout", "beige"],
    [("chairs", ["stoel"]), ("tables", ["tafel", "eettafel"]),
     ("storage", ["kast"]), ("lighting", ["lamp"])]⟩)]

/-- Field selector chains of /style-collection. -/
def titleSelsStyle : List String := [SEL_title, ".hz-Listing-title", "h3"]
def priceSelsStyle : List String := [SEL_price, ".hz-Listing-price"]
def locSelsStyle : List String := [SEL_location, ".hz-Listing-location"]
def imgSelsStyle : List String := [SEL_image, "img"]

/-- Python `x or y` on optional strings (None and "" are falsy). -/
def pyOrStrOpt (a b : Option String) : Option String :=
  match a with
  | some s => if s = "" then b else some s
  | none => b

/-- The card-to-item extraction of /style-collection. -/
def buildItemStyle (style_term furniture_type : String) (c : Card) : Option StyleItem :=
  match c.sel SEL_link with
  | none => none
  | some a =>
    let href := (attrGet a "href").getD ""
    if href = "" then none
    else
      let full_url := if pyStartsWith href "http" then href else urljoin BASE href
      let title_el := firstSel c titleSelsStyle
      let price_el := firstSel c priceSelsStyle
      let loc_el := firstSel c locSelsStyle
      let img_el := firstSel c imgSelsStyle
      let price_text := match price_el with
        | some e => translate_price_text_to_english e.text
        | none => ""
      some {
        id := extract_id full_url
        url := full_url
        title := (title_el.map (fun e => translate_dutch_title_to_english e.text)).getD ""
        price_text := price_text
        location := (loc_el.map SubElem.text).getD ""
        image_url := match img_el with
          | some e => pyOrStrOpt (attrGet e "src") (attrGet e "data-src")
          | none => none
        style_match := style_term
        furniture_type := furniture_type
        price_eur := parse_price (some price_text) }

/-- One search of /style-collection: fetch one page for the query
"style_term furniture_type", process at most 3 cards, deduplicating
against the category-wide seen set; a raised exception is swallowed by
the inner try/except (continue). -/
def styleSearchStep (fetch : Fetch) (style_term furniture_type : String)
    (st : List String × List StyleItem) : List String × List StyleItem :=
  let search_query := style_term ++ " " ++ furniture_type
  match fetch (pageUrl search_query 1) with
  | .error _ => st
  | .ok pg =>
    let cards := selectCards pg altSelectorsStyle
    (cards.take 3).foldl
      (dedupStep (buildItemStyle style_term furniture_type) StyleItem.id) st

/-- The nested loop of a category: for each style term, for each
furniture type, one search, threading the seen/items state. -/
def styleCategoryItems (fetch : Fetch) (search_terms : List String)
    (ftypes : List String) : List StyleItem :=
  (search_terms.foldl
    (fun st sterm =>
      ftypes.foldl (fun st2 ftype => styleSearchStep fetch sterm ftype st2) st)
    ([], [])).2

/-- The category loop: a category enters the collection only when its
item list is non-empty, price-sorted and truncated to 6. -/
def styleCollectionBuild (fetch : Fetch) (pat : StylePattern) :
    List (String × List StyleItem) :=
  pat.furniture_types.foldl
    (fun coll cft =>
      let category_items := styleCategoryItems fetch pat.search_terms cft.2
      if category_items.isEmpty then coll
      else dictInsert cft.1 ((pySort keyLeS category_items).take 6) coll)
    []

/-- Outcome of /style-collection: the normal payload, the
unsupported-style object (keys error and available_styles), or the
caught-exception object (keys error and details). -/
inductive StyleResponse where
  | ok (style : String) (total_categories : Nat)
      (collection : List (String × List StyleItem))
  | unsupported (error : String) (available_styles : List String)
  | err (error details : String)
deriving DecidableEq

/-- POST /style-collection. -/
def get_style_collection (fetch : Fetch) (style : String) : StyleResponse :=
  let style_key := pyLower style
  match style_patterns.lookup style_key with
  | none =>
    .unsupported ("Style \x27" ++ style ++ "\x27 not supported")
      (style_patterns.map Prod.fst)
  | some pat =>
    let collection := styleCollectionBuild fetch pat
    .ok style collection.length collection

/-! ## scraper.py : _extract_listing_data selector chains -/

/-- The per-field selector lists of scraper.py, in their listed order. -/
def scraperTitleSelectors : List String :=
  ["h3", ".mp-listing-title", "[data-testid*=\x22title\x22]", "h2", ".hz-Listing-title"]
def scraperPriceSelectors : List String :=
  [".mp-listing-price", "[data-testid*=\x22price\x22]", ".hz-Listing-price", ".price"]
def scraperLocationSelectors : List String :=
  [".mp-listing-location", "[data-testid*=\x22location\x22]", ".hz-Listing-location", ".location"]
def scraperDescSelectors : List String :=
  [".mp-listing-description", "[data-testid*=\x22description\x22]", ".hz-Listing-description", ".description"]

/-- scraper.py _clean_text. -/
def clean_text (s : String) : String :=
  if s = "" then "" else ⟨squeezeSpaces (pyStrip s.data)⟩

/-- The element chosen for each field by _extract_listing_data: the
selector lists are probed in order and the first match wins. -/
def scraperTitleEl (c : Card) : Option SubElem := firstSel c scraperTitleSelectors
def scraperPriceEl (c : Card) : Option SubElem := firstSel c scraperPriceSelectors
def scraperLocationEl (c : Card) : Option SubElem := firstSel c scraperLocationSelectors
def scraperDescEl (c : Card) : Option SubElem := firstSel c scraperDescSelectors

/-! ## The order stated by the specification on returned lists -/

/-- The sortedness relation the specification claims: an unpriced item
never precedes a priced one, and priced items are in non-decreasing
price order. -/
def priceRel (a b : Option Rat) : Prop :=
  match a, b with
  | none, some _ => False
  | some p, some q => p ≤ q
  | _, _ => True

def itemLe (a b : Item) : Prop := priceRel a.price_eur b.price_eur
def fitemLe (a b : FormattedItem) : Prop := priceRel a.price b.price
def sitemLe (a b : StyleItem) : Prop := priceRel a.price_eur b.price_eur

/-! ## Specification-side definitions and concrete instances -/

/-- The number of items /batch-search produces for one query (0 for a
raised fetch, in which case the whole endpoint errors anyway). -/
def batchCountSpec (fetch : Fetch) (maxRes : Option Int) (q : String) : Nat :=
  match batchQueryItems fetch maxRes q with
  | .ok raw => raw.length
  | .error _ => 0

/-- The cross product of style terms and furniture types, in the order
of the nested loops of /style-collection. -/
def styleCross (sts fts : List String) : List (String × String) :=
  sts.flatMap (fun s => fts.map (fun f => (s, f)))

/-- A link sub-element pointing at the listing /v/123. -/
def linkElem : SubElem := ⟨"", [("href", "/v/123")]⟩

/-- A card whose only matching selector is the link selector. -/
def cardLinkOnly : Card :=
  ⟨fun s => if s = SEL_link then some linkElem else none⟩

/-- A page with exactly one primary-selector card. -/
def pageOneCard : Page :=
  ⟨fun s => if s = SEL_card then [cardLinkOnly] else []⟩

/-- A site that answers every URL with `pageOneCard`. -/
def fetchOneCard : Fetch := fun _ => .ok pageOneCard

/-- The item the pipelines extract from `cardLinkOnly`. -/
def itemV123 : Item :=
  ⟨"123", "https://www.marktplaats.nl/v/123", "", none, none, none, none, none, none⟩

/-- Two distinguishable sub-elements for the scraper.py selector-order
counterexample. -/
def subPriceClassEl : SubElem := ⟨"1", []⟩
def subPriceTestidEl : SubElem := ⟨"2", []⟩

/-- A card where both the class price selector and the data-testid
price selector match, with different elements. -/
def cardTwoPrices : Card :=
  ⟨fun s =>
    if s = ".mp-listing-price" then some subPriceClassEl
    else if s = "[data-testid*=\x22price\x22]" then some subPriceTestidEl
    else none⟩

/-- Specification-side search-term parts, written from the claim: the
first Dutch translation of the first matching furniture term, then the
Dutch terms of the first matching style, then the first Dutch
translation of the first matching color; when nothing matched, a room
translation or the original query. -/
def stdParts (query : String) : List String :=
  let ql := pyLower query
  let parts :=
    (match furnitureTranslations.find? (fun p => strContains ql p.1) with
      | some p => [p.2.headD ""]
      | none => []) ++
    (match styleTranslations.find? (fun p => strContains ql p.1) with
      | some p => p.2
      | none => []) ++
    (match colorTranslations.find? (fun p => strContains ql p.1) with
      | some p => [p.2.headD ""]
      | none => [])
  if parts.isEmpty then
    if strContains ql "living room" then ["woonkamer"]
    else if strContains ql "bedroom" then ["slaapkamer"]
    else if strContains ql "dining room" then ["eetkamer"]
    else [query]
  else parts

/-- Specification-side restatement of parse_price, written from the
claim: None for empty or missing input, for a blacklisted phrase
(case-insensitively contained), and for text with no digit/dot/comma
run; otherwise the first maximal such run of the text with dots deleted
and commas turned into decimal points, read as a number. -/
def parse_price_spec (text : Option String) : Option Rat :=
  match text with
  | none => none
  | some s =>
    if s = "" then none
    else if ["bieden", "gratis", "n.o.t.k", "prijs op aanvraag"].any
        (fun x => strContains (pyLower s) x) then
      none
    else
      match priceRuns s.data with
      | [] => none
      | m :: _ => pyFloat? (normalizeRun m)

theorem priceKeyLe_trans (a b c : Option Rat) (h1 : priceKeyLe a b = true)
    (h2 : priceKeyLe b c = true) : priceKeyLe a c = true := by
  cases a <;> cases b <;> cases c <;>
    simp only [priceKeyLe, decide_eq_true_eq] at * <;> try trivial
  exact le_trans h1 h2

theorem priceKeyLe_total (a b : Option Rat) :
    (priceKeyLe a b || priceKeyLe b a) = true := by
  cases a <;> cases b <;>
    simp only [priceKeyLe, Bool.or_eq_true, decide_eq_true_eq] <;> try trivial
  exact le_total _ _

theorem priceKeyLe_rel (a b : Option Rat) (h : priceKeyLe a b = true) :
    priceRel a b := by
  cases a <;> cases b <;>
    simp only [priceKeyLe, priceRel, decide_eq_true_eq] at * <;> trivial

section SortLemmas

variable {α : Type} (le : α → α → Bool)

theorem insertLe_perm (a : α) : ∀ l, List.Perm (insertLe le a l) (a :: l)
  | [] => List.Perm.refl _
  | b :: bs => by
    unfold insertLe
    by_cases h : le a b
    · rw [if_pos h]
    · rw [if_neg h]
      exact ((insertLe_perm a bs).cons b).trans (List.Perm.swap a b bs)

theorem pySort_perm : ∀ l, List.Perm (pySort le l) l
  | [] => List.Perm.refl _
  | a :: xs => (insertLe_perm le a (pySort le xs)).trans ((pySort_perm xs).cons a)

theorem insertLe_pairwise
    (htrans : ∀ a b c : α, le a b = true → le b c = true → le a c = true)
    (htotal : ∀ a b : α, (le a b || le b a) = true) (a : α) :
    ∀ l, l.Pairwise (fun x y => le x y = true) →
      (insertLe le a l).Pairwise (fun x y => le x y = true)
  | [], _ => by simp [insertLe]
  | b :: bs, hp => by
    rcases List.pairwise_cons.mp hp with ⟨hb, hbs⟩
    unfold insertLe
    by_cases h : le a b
    · rw [if_pos h]
      refine List.pairwise_cons.mpr ⟨?_, hp⟩
      intro x hx
      rcases List.mem_cons.mp hx with rfl | hx
      · exact h
      · exact htrans a b x h (hb x hx)
    · rw [if_neg h]
      have hba : le b a = true := by
        rcases Bool.or_eq_true _ _ |>.mp (htotal a b) with h1 | h1
        · exact absurd h1 h
        · exact h1
      refine List.pairwise_cons.mpr
        ⟨?_, insertLe_pairwise htrans htotal a bs hbs⟩
      intro x hx
      rcases (insertLe_perm le a bs).mem_iff.mp hx with hx2
      rcases List.mem_cons.mp hx2 with rfl | hx2
      · exact hba
      · exact hb x hx2

theorem pySort_pairwise
    (htrans : ∀ a b c : α, le a b = true → le b c = true → le a c = true)
    (htotal : ∀ a b : α, (le a b || le b a) = true) :
    ∀ l, (pySort le l).Pairwise (fun x y => le x y = true)
  | [] => by simp [pySort]
  | a :: xs =>
    insertLe_pairwise le htrans htotal a (pySort le xs)
      (pySort_pairwise htrans htotal xs)

end SortLemmas

/-- Sorting with the Python price key yields the claimed order. -/
theorem pySort_keyLe_sorted (l : List Item) :
    (pySort keyLe l).Pairwise itemLe := by
  have h := pySort_pairwise keyLe
    (fun a b c => priceKeyLe_trans a.price_eur b.price_eur c.price_eur)
    (fun a b => priceKeyLe_total a.price_eur b.price_eur) l
  exact h.imp (fun hab => priceKeyLe_rel _ _ hab)

theorem pySort_keyLeS_sorted (l : List StyleItem) :
    (pySort keyLeS l).Pairwise sitemLe := by
  have h := pySort_pairwise keyLeS
    (fun a b c => priceKeyLe_trans a.price_eur b.price_eur c.price_eur)
    (fun a b => priceKeyLe_total a.price_eur b.price_eur) l
  exact h.imp (fun hab => priceKeyLe_rel _ _ hab)

/-! ## Deduplication-fold lemmas -/

section Dedup

variable {α : Type} (build : Card → Option α) (getId : α → String)

theorem dedupStep_cases (st : List String × List α) (c : Card) :
    dedupStep build getId st c = st ∨
    ∃ it, build c = some it ∧ getId it ∉ st.1 ∧
      dedupStep build getId st c = (getId it :: st.1, st.2 ++ [it]) := by
  unfold dedupStep
  cases hb : build c with
  | none => exact .inl rfl
  | some it =>
    dsimp only
    by_cases hmem : getId it ∈ st.1
    · left
      have hcont : st.1.contains (getId it) = true := by
        simpa [List.elem_iff] using hmem
      rw [if_pos hcont]
    · right
      refine ⟨it, rfl, hmem, ?_⟩
      have hcont : ¬ st.1.contains (getId it) = true := by
        simpa [List.elem_iff] using hmem
      rw [if_neg hcont]

theorem dedupStep_inv (st : List String × List α) (c : Card)
    (h1 : (st.2.map getId).Nodup) (h2 : ∀ a ∈ st.2, getId a ∈ st.1) :
    ((dedupStep build getId st c).2.map getId).Nodup ∧
      ∀ a ∈ (dedupStep build getId st c).2,
        getId a ∈ (dedupStep build getId st c).1 := by
  rcases dedupStep_cases build getId st c with h | ⟨it, _, hnot, h⟩
  · rw [h]; exact ⟨h1, h2⟩
  · rw [h]
    constructor
    · rw [List.map_append]
      refine List.Nodup.append h1 (by simp) ?_
      intro x hx hy
      simp only [List.map_cons, List.mem_map] at hx
      simp only [List.map_nil, List.map_cons, List.mem_singleton] at hy
      rcases hx with ⟨a, ha, rfl⟩
      exact hnot (hy ▸ h2 a ha)
    · intro a ha
      rcases List.mem_append.mp ha with ha | ha
      · exact List.mem_cons_of_mem _ (h2 a ha)
      · simp only [List.mem_singleton] at ha
        subst ha
        exact List.mem_cons_self _ _

theorem dedupStep_mem (st : List String × List α) (c : Card) (a : α)
    (h : a ∈ (dedupStep build getId st c).2) :
    a ∈ st.2 ∨ build c = some a := by
  rcases dedupStep_cases build getId st c with hc | ⟨it, hb, _, hc⟩
  · rw [hc] at h; exact .inl h
  · rw [hc] at h
    rcases List.mem_append.mp h with h | h
    · exact .inl h
    · simp only [List.mem_singleton] at h
      exact .inr (h ▸ hb)

theorem dedupStep_len (st : List String × List α) (c : Card) :
    (dedupStep build getId st c).2.length ≤ st.2.length + 1 := by
  rcases dedupStep_cases build getId st c with h | ⟨it, _, _, h⟩ <;> rw [h] <;> simp

theorem foldl_dedup_inv : ∀ (cs : List Card) (st : List String × List α),
    (st.2.map getId).Nodup → (∀ a ∈ st.2, getId a ∈ st.1) →
    ((cs.foldl (dedupStep build getId) st).2.map getId).Nodup ∧
      ∀ a ∈ (cs.foldl (dedupStep build getId) st).2,
        getId a ∈ (cs.foldl (dedupStep build getId) st).1
  | [], st, h1, h2 => ⟨h1, h2⟩
  | c :: cs, st, h1, h2 => by
    have h := dedupStep_inv build getId st c h1 h2
    simpa using foldl_dedup_inv cs (dedupStep build getId st c) h.1 h.2

theorem foldl_dedup_mem : ∀ (cs : List Card) (st : List String × List α) (a : α),
    a ∈ (cs.foldl (dedupStep build getId) st).2 →
    a ∈ st.2 ∨ ∃ c ∈ cs, build c = some a
  | [], st, a, h => .inl h
  | c :: cs, st, a, h => by
    rcases foldl_dedup_mem cs (dedupStep build getId st c) a (by simpa using h) with
      h2 | ⟨c2, hc2, hb⟩
    · rcases dedupStep_mem build getId st c a h2 with h3 | h3
      · exact .inl h3
      · exact .inr ⟨c, List.mem_cons_self _ _, h3⟩
    · exact .inr ⟨c2, List.mem_cons_of_mem _ hc2, hb⟩

theorem foldl_dedup_len : ∀ (cs : List Card) (st : List String × List α),
    (cs.foldl (dedupStep build getId) st).2.length ≤ st.2.length + cs.length
  | [], st => le_refl _
  | c :: cs, st => by
    have h1 := foldl_dedup_len cs (dedupStep build getId st c)
    have h2 := dedupStep_len build getId st c
    simp only [List.foldl_cons, List.length_cons]
    omega

end Dedup

/-! ## Page-loop lemmas -/

theorem pagesLoop_inv (fetch : Fetch) (build : Card → Option Item) (q : String) :
    ∀ (ps : List Nat) (st st2 : List String × List Item),
    pagesLoop fetch build q ps st = .ok st2 →
    (st.2.map Item.id).Nodup → (∀ a ∈ st.2, a.id ∈ st.1) →
    (st2.2.map Item.id).Nodup ∧ ∀ a ∈ st2.2, a.id ∈ st2.1
  | [], st, st2, h, h1, h2 => by
    simp only [pagesLoop, Except.ok.injEq] at h
    exact h ▸ ⟨h1, h2⟩
  | p :: ps, st, st2, h, h1, h2 => by
    simp only [pagesLoop] at h
    cases hf : fetch (pageUrl q p) with
    | error e => rw [hf] at h; cases h
    | ok pg =>
      rw [hf] at h
      have hstep := foldl_dedup_inv build Item.id
        (selectCards pg altSelectorsMain) st h1 h2
      exact pagesLoop_inv fetch build q ps _ st2 h hstep.1 hstep.2

theorem pagesLoop_mem (fetch : Fetch) (build : Card → Option Item) (q : String) :
    ∀ (ps : List Nat) (st st2 : List String × List Item),
    pagesLoop fetch build q ps st = .ok st2 →
    ∀ a ∈ st2.2, a ∈ st.2 ∨ ∃ c, build c = some a
  | [], st, st2, h, a, ha => by
    simp only [pagesLoop, Except.ok.injEq] at h
    exact .inl (h ▸ ha)
  | p :: ps, st, st2, h, a, ha => by
    simp only [pagesLoop] at h
    cases hf : fetch (pageUrl q p) with
    | error e => rw [hf] at h; cases h
    | ok pg =>
      rw [hf] at h
      rcases pagesLoop_mem fetch build q ps _ st2 h a ha with h2 | h2
      · rcases foldl_dedup_mem build Item.id _ st a h2 with h3 | ⟨c, _, hc⟩
        · exact .inl h3
        · exact .inr ⟨c, hc⟩
      · exact .inr h2

/-- The id stored in an item built by the /scrape extraction is
extract_id of the stored url. -/
theorem buildItemMain_id (c : Card) (it : Item)
    (h : buildItemMain c = some it) : it.id = extract_id it.url := by
  unfold buildItemMain at h
  cases hc : c.sel SEL_link with
  | none => rw [hc] at h; simp at h
  | some a =>
    rw [hc] at h
    dsimp only at h
    by_cases hh : (attrGet a "href").getD "" = ""
    · rw [if_pos hh] at h; cases h
    · rw [if_neg hh] at h
      simp only [Option.some.injEq] at h
      rw [← h]

/-! ## C1 and C2 -/

/-- C1: every successful /scrape response has pairwise-distinct listing
ids, each computed by extract_id from the item's full listing url; a
card whose id was already seen is skipped across all fetched pages. -/
theorem scrape_items_ids_nodup (fetch : Fetch) (query : String) (pages : Nat)
    (payload : ScrapePayload) (h : scrape fetch query pages = .ok payload) :
    (payload.items.map Item.id).Nodup ∧
      ∀ it ∈ payload.items, it.id = extract_id it.url := by
  unfold scrape at h
  cases hp : pagesLoop fetch buildItemMain query (List.range' 1 pages) ([], []) with
  | error e => rw [hp] at h; cases h
  | ok st =>
    rw [hp] at h
    simp only [ApiResult.ok.injEq] at h
    subst h
    have hperm : List.Perm (pySort keyLe st.2) st.2 := pySort_perm keyLe st.2
    have hinv := pagesLoop_inv fetch buildItemMain query _ _ st hp
      (by simp) (by simp)
    constructor
    · exact ((hperm.map Item.id).nodup_iff).mpr hinv.1
    · intro it hit
      have hmem : it ∈ st.2 := hperm.mem_iff.mp hit
      rcases pagesLoop_mem fetch buildItemMain query _ _ st hp it hmem with h2 | ⟨c, hc⟩
      · cases h2
      · exact buildItemMain_id c it hc

/-- A closed instance for C1: a run over an empty site succeeds. -/
theorem scrape_items_ids_nodup_witness :
    scrape (fun _ => .ok ⟨fun _ => []⟩) "bank" 1 = .ok ⟨"bank", 1, 0, []⟩ ∧
      (([] : List Item).map Item.id).Nodup := by
  have h : scrape (fun _ => .ok ⟨fun _ => []⟩) "bank" 1 = .ok ⟨"bank", 1, 0, []⟩ := by
    decide
  exact ⟨h, (scrape_items_ids_nodup _ "bank" 1 ⟨"bank", 1, 0, []⟩ h).1⟩

/-- Any entry of the dict after an assignment is an old entry or the
assigned pair. -/
theorem dictInsert_mem {α : Type} (k : String) (v : α)
    (d : List (String × α)) (e : String × α) (h : e ∈ dictInsert k v d) :
    e ∈ d ∨ e = (k, v) := by
  unfold dictInsert at h
  by_cases hc : d.any (fun p => p.1 == k)
  · rw [if_pos hc] at h
    rcases List.mem_map.mp h with ⟨p, hp, hpe⟩
    by_cases hpk : p.1 == k
    · rw [if_pos hpk] at hpe
      exact .inr hpe.symm
    · rw [if_neg hpk] at hpe
      exact .inl (hpe ▸ hp)
  · rw [if_neg hc] at h
    rcases List.mem_append.mp h with h | h
    · exact .inl h
    · exact .inr (List.mem_singleton.mp h)

/-- The assigned key is present afterwards. -/
theorem dictInsert_key_mem {α : Type} (k : String) (v : α)
    (d : List (String × α)) : k ∈ (dictInsert k v d).map Prod.fst := by
  unfold dictInsert
  by_cases hc : d.any (fun p => p.1 == k)
  · rw [if_pos hc]
    rcases List.any_eq_true.mp hc with ⟨p, hp, hpk⟩
    refine List.mem_map.mpr ⟨(k, v), ?_, rfl⟩
    refine List.mem_map.mpr ⟨p, hp, ?_⟩
    rw [if_pos hpk]
  · rw [if_neg hc]
    simp

/-- Keys are never removed by an assignment. -/
theorem dictInsert_key_mono {α : Type} (k k2 : String) (v : α)
    (d : List (String × α)) (h : k ∈ d.map Prod.fst) :
    k ∈ (dictInsert k2 v d).map Prod.fst := by
  unfold dictInsert
  by_cases hc : d.any (fun p => p.1 == k2)
  · rw [if_pos hc]
    rcases List.mem_map.mp h with ⟨p, hp, hpk⟩
    by_cases hpk2 : p.1 == k2
    · refine List.mem_map.mpr ⟨(k2, v), List.mem_map.mpr ⟨p, hp, by rw [if_pos hpk2]⟩, ?_⟩
      have : k = k2 := by
        rw [← hpk]
        exact beq_iff_eq.mp hpk2
      simp [this]
    · exact List.mem_map.mpr ⟨p, List.mem_map.mpr ⟨p, hp, by rw [if_neg hpk2]⟩, hpk⟩
  · rw [if_neg hc]
    rw [List.map_append]
    exact List.mem_append_left _ h

/-- Every entry of a successful /batch-search results object is an
entry of the starting dict or the price-sorted outcome of one of the
processed queries. -/
theorem batchGo_entries (fetch : Fetch) (m : Option Int) :
    ∀ (qs : List String) (acc : List (String × QueryResult)) (tot : Nat)
      (res : List (String × QueryResult) × Nat),
    batchGo fetch m qs acc tot = .ok res →
    ∀ e ∈ res.1, e ∈ acc ∨ ∃ q ∈ qs, ∃ raw,
      batchQueryItems fetch m q = .ok raw ∧
      e = (q, ⟨(pySort keyLe raw).length, pySort keyLe raw⟩)
  | [], acc, tot, res, h, e, he => by
    simp only [batchGo, Except.ok.injEq] at h
    subst h
    exact .inl he
  | q :: qs, acc, tot, res, h, e, he => by
    simp only [batchGo] at h
    cases hb : batchQueryItems fetch m q with
    | error er => rw [hb] at h; cases h
    | ok raw =>
      rw [hb] at h
      rcases batchGo_entries fetch m qs _ _ res h e he with h2 | ⟨q2, hq2, raw2, hb2, he2⟩
      · rcases dictInsert_mem _ _ _ _ h2 with h3 | h3
        · exact .inl h3
        · exact .inr ⟨q, List.mem_cons_self _ _, raw, hb, h3⟩
      · exact .inr ⟨q2, List.mem_cons_of_mem _ hq2, raw2, hb2, he2⟩

/-- C2: every items list returned by /scrape, by /batch-search for each
query, and by /smart-search is sorted by the price comparator: priced
items precede unpriced ones and the priced prefix is non-decreasing. -/
theorem responses_price_sorted :
    (∀ (fetch : Fetch) (query : String) (pages : Nat) (payload : ScrapePayload),
      scrape fetch query pages = .ok payload → payload.items.Pairwise itemLe)
    ∧ (∀ (fetch : Fetch) (queries : List String) (maxRes : Option Int)
        (payload : BatchPayload),
      batch_search fetch queries maxRes = .ok payload →
      ∀ e ∈ payload.results, e.2.items.Pairwise itemLe)
    ∧ (∀ (fetch : Fetch) (query : String) (payload : SmartPayload),
      smart_search fetch query = .ok payload →
      payload.items.Pairwise fitemLe) := by
  refine ⟨?_, ?_, ?_⟩
  · intro fetch query pages payload h
    unfold scrape at h
    cases hp : pagesLoop fetch buildItemMain query (List.range' 1 pages) ([], []) with
    | error e => rw [hp] at h; cases h
    | ok st =>
      rw [hp] at h
      simp only [ApiResult.ok.injEq] at h
      subst h
      exact pySort_keyLe_sorted st.2
  · intro fetch queries maxRes payload h
    unfold batch_search at h
    cases hb : batchGo fetch maxRes queries [] 0 with
    | error e => rw [hb] at h; cases h
    | ok res =>
      rw [hb] at h
      simp only [ApiResult.ok.injEq] at h
      subst h
      intro e he
      rcases batchGo_entries fetch maxRes queries [] 0 res hb e he with h2 | ⟨q, _, raw, _, he2⟩
      · cases h2
      · rw [he2]
        exact pySort_keyLe_sorted raw
  · intro fetch query payload h
    unfold smart_search at h
    dsimp only at h
    cases hp : pagesLoop fetch buildItemSmart
        (parse_natural_language_query query).search_terms (List.range' 1 2) ([], []) with
    | error e => rw [hp] at h; cases h
    | ok st =>
      rw [hp] at h
      simp only [ApiResult.ok.injEq] at h
      subst h
      have hs := pySort_keyLe_sorted
        (smartMinFilter (parse_natural_language_query query).min_price_eur
          (smartMaxFilter (parse_natural_language_query query).max_price_eur st.2))
      have ht := hs.sublist (List.take_sublist 20 _)
      exact List.pairwise_map.mpr (ht.imp (fun hab => hab))

/-- A closed instance for C2: the scrape conjunct at an empty site. -/
theorem responses_price_sorted_witness :
    scrape (fun _ => .ok ⟨fun _ => []⟩) "kast" 1 = .ok ⟨"kast", 1, 0, []⟩ ∧
      (([] : List Item).Pairwise itemLe) := by
  have h : scrape (fun _ => .ok ⟨fun _ => []⟩) "kast" 1 = .ok ⟨"kast", 1, 0, []⟩ := by
    decide
  exact ⟨h, responses_price_sorted.1 _ "kast" 1 ⟨"kast", 1, 0, []⟩ h⟩

/-! ## C8, C9, C10 -/

/-- C8: the /smart-search max-price filter never removes an item with
unknown price; an item is removed only when its price is present and
exceeds the limit, so items priced within the limit are kept too. -/
theorem smart_max_filter_keeps_unpriced :
    (∀ (mp : Option Nat) (items : List Item) (it : Item),
      it ∈ items → it.price_eur = none → it ∈ smartMaxFilter mp items)
    ∧ (∀ (m : Nat) (items : List Item) (it : Item) (p : Rat),
      it ∈ items → it.price_eur = some p → p ≤ mkRat m 1 →
      it ∈ smartMaxFilter (some m) items) := by
  constructor
  · intro mp items it hmem hnone
    unfold smartMaxFilter
    cases mp with
    | none => exact hmem
    | some m =>
      dsimp only
      by_cases hm : m ≠ 0
      · rw [if_pos hm]
        refine List.mem_filter.mpr ⟨hmem, ?_⟩
        simp [hnone]
      · rw [if_neg hm]
        exact hmem
  · intro m items it p hmem hsome hle
    unfold smartMaxFilter
    dsimp only
    by_cases hm : m ≠ 0
    · rw [if_pos hm]
      refine List.mem_filter.mpr ⟨hmem, ?_⟩
      simp only [hsome, decide_eq_true_eq]
      exact hle
    · rw [if_neg hm]
      exact hmem

/-- A closed instance for C8: an unpriced item survives a 100-euro
limit. -/
theorem smart_max_filter_keeps_unpriced_witness :
    (⟨"m1", "u", "", none, none, none, none, none, none⟩ : Item) ∈
      smartMaxFilter (some 100)
        [⟨"m1", "u", "", none, none, none, none, none, none⟩] :=
  smart_max_filter_keeps_unpriced.1 (some 100) _ _
    (List.mem_singleton.mpr rfl) rfl

/-- C9: no scraping endpoint propagates an exception: each returns its
normal payload or the JSON object with keys error and details built by
the except branch (for /style-collection also the unsupported-style
object); a raised fetch on the first /scrape page surfaces as that
error object. -/
theorem endpoints_never_raise :
    (∀ (fetch : Fetch) (query : String) (pages : Nat),
      (∃ p, scrape fetch query pages = .ok p) ∨
      (∃ d, scrape fetch query pages = .err "An error occurred while scraping" d))
    ∧ (∀ (fetch : Fetch) (queries : List String) (maxRes : Option Int),
      (∃ p, batch_search fetch queries maxRes = .ok p) ∨
      (∃ d, batch_search fetch queries maxRes =
        .err "An error occurred during batch search" d))
    ∧ (∀ (fetch : Fetch) (query : String),
      (∃ p, smart_search fetch query = .ok p) ∨
      (∃ d, smart_search fetch query =
        .err "An error occurred during smart search" d))
    ∧ (∀ (fetch : Fetch) (style : String),
      (∃ s n coll, get_style_collection fetch style = .ok s n coll) ∨
      (∃ msg av, get_style_collection fetch style = .unsupported msg av))
    ∧ (∀ (fetch : Fetch) (query : String) (pages : Nat) (e : String),
      fetch (pageUrl query 1) = .error e → 1 ≤ pages →
      scrape fetch query pages = .err "An error occurred while scraping" e) := by
  refine ⟨?_, ?_, ?_, ?_, ?_⟩
  · intro fetch query pages
    cases hp : pagesLoop fetch buildItemMain query (List.range' 1 pages) ([], []) with
    | error e =>
      right
      refine ⟨e, ?_⟩
      unfold scrape
      rw [hp]
    | ok st =>
      left
      exact ⟨_, by unfold scrape; rw [hp]⟩
  · intro fetch queries maxRes
    cases hb : batchGo fetch maxRes queries [] 0 with
    | error e =>
      right
      refine ⟨e, ?_⟩
      unfold batch_search
      rw [hb]
    | ok res =>
      left
      exact ⟨_, by unfold batch_search; rw [hb]⟩
  · intro fetch query
    cases hp : pagesLoop fetch buildItemSmart
        (parse_natural_language_query query).search_terms (List.range' 1 2) ([], []) with
    | error e =>
      right
      refine ⟨e, ?_⟩
      unfold smart_search
      dsimp only
      rw [hp]
    | ok st =>
      left
      exact ⟨_, by unfold smart_search; dsimp only; rw [hp]⟩
  · intro fetch style
    cases hl : style_patterns.lookup (pyLower style) with
    | none =>
      right
      exact ⟨_, _, by unfold get_style_collection; dsimp only; rw [hl]⟩
    | some pat =>
      left
      exact ⟨_, _, _, by unfold get_style_collection; dsimp only; rw [hl]⟩
  · intro fetch query pages e hf hpg
    cases pages with
    | zero => exact absurd hpg (by decide)
    | succ n =>
      unfold scrape
      have hloop : pagesLoop fetch buildItemMain query (List.range' 1 (n + 1)) ([], []) =
          .error e := by
        rw [List.range'_succ]
        simp only [pagesLoop]
        rw [hf]
      rw [hloop]

/-- A closed instance for C9: a network failure on the first page turns
into the /scrape error object. -/
theorem endpoints_never_raise_witness :
    scrape (fun _ => .error "boom") "stoel" 1 =
      .err "An error occurred while scraping" "boom" :=
  endpoints_never_raise.2.2.2.2 (fun _ => .error "boom") "stoel" 1 "boom" rfl
    (by decide)

/-- C10: a successful /smart-search returns at most 20 items, each
reshaped to the fixed field set with currency EUR, source Marktplaats
and a null distance_km. -/
theorem smart_response_shape (fetch : Fetch) (query : String)
    (payload : SmartPayload) (h : smart_search fetch query = .ok payload) :
    payload.items.length ≤ 20 ∧
      ∀ fi ∈ payload.items, fi.currency = "EUR" ∧ fi.source = "Marktplaats" ∧
        fi.distance_km = none := by
  unfold smart_search at h
  dsimp only at h
  cases hp : pagesLoop fetch buildItemSmart
      (parse_natural_language_query query).search_terms (List.range' 1 2) ([], []) with
  | error e => rw [hp] at h; cases h
  | ok st =>
    rw [hp] at h
    simp only [ApiResult.ok.injEq] at h
    subst h
    constructor
    · rw [List.length_map]
      exact List.length_take_le _ _
    · intro fi hfi
      rcases List.mem_map.mp hfi with ⟨it, _, rfl⟩
      exact ⟨rfl, rfl, rfl⟩

/-- A closed instance for C10: a /smart-search over an empty site. -/
theorem smart_response_shape_witness :
    smart_search (fun _ => .ok ⟨fun _ => []⟩) "q" =
      .ok ⟨⟨none, none, none, none, "amsterdam", 10⟩, [], none⟩ ∧
    ([] : List FormattedItem).length ≤ 20 := by
  have h : smart_search (fun _ => .ok ⟨fun _ => []⟩) "q" =
      .ok ⟨⟨none, none, none, none, "amsterdam", 10⟩, [], none⟩ := by decide
  exact ⟨h, (smart_response_shape _ "q" _ h).1⟩

/-! ## C7 -/

theorem batchQueryItems_len_pos (fetch : Fetch) (n : Int) (q : String)
    (raw : List Item) (hn : 0 < n)
    (hb : batchQueryItems fetch (some n) q = .ok raw) : raw.length ≤ n.toNat := by
  unfold batchQueryItems at hb
  cases hf : fetch (pageUrl q 1) with
  | error e => rw [hf] at hb; cases hb
  | ok pg =>
    rw [hf] at hb
    dsimp only at hb
    have h0 : ¬ (n = 0) := by omega
    rw [if_neg h0] at hb
    simp only [Except.ok.injEq] at hb
    subst hb
    have hlen := foldl_dedup_len buildItemMain Item.id
      (pySliceTo n (selectCards pg altSelectorsMain)) ([], [])
    have hslice : (pySliceTo n (selectCards pg altSelectorsMain)).length ≤ n.toNat := by
      unfold pySliceTo
      rw [if_pos hn.le]
      exact List.length_take_le _ _
    have hlen2 : ((pySliceTo n (selectCards pg altSelectorsMain)).foldl
        (dedupStep buildItemMain Item.id) ([], [])).2.length ≤
        (pySliceTo n (selectCards pg altSelectorsMain)).length := by
      simpa using hlen
    exact le_trans hlen2 hslice

theorem batchQueryItems_len_default (fetch : Fetch) (m : Option Int) (q : String)
    (raw : List Item) (hm : m = none ∨ m = some 0)
    (hb : batchQueryItems fetch m q = .ok raw) : raw.length ≤ 20 := by
  unfold batchQueryItems at hb
  cases hf : fetch (pageUrl q 1) with
  | error e => rw [hf] at hb; cases hb
  | ok pg =>
    rw [hf] at hb
    have hbound : (match m with
        | none => (20 : Int)
        | some n => if n = 0 then 20 else n) = 20 := by
      rcases hm with rfl | rfl
      · rfl
      · simp
    rw [hbound] at hb
    simp only [Except.ok.injEq] at hb
    subst hb
    have hlen := foldl_dedup_len buildItemMain Item.id
      (pySliceTo 20 (selectCards pg altSelectorsMain)) ([], [])
    have hslice : (pySliceTo 20 (selectCards pg altSelectorsMain)).length ≤ 20 := by
      unfold pySliceTo
      rw [if_pos (by omega)]
      exact List.length_take_le _ _
    have hlen2 : ((pySliceTo 20 (selectCards pg altSelectorsMain)).foldl
        (dedupStep buildItemMain Item.id) ([], [])).2.length ≤
        (pySliceTo 20 (selectCards pg altSelectorsMain)).length := by
      simpa using hlen
    exact le_trans hlen2 hslice

theorem batchGo_total (fetch : Fetch) (m : Option Int) :
    ∀ (qs : List String) (acc : List (String × QueryResult)) (tot : Nat)
      (res : List (String × QueryResult) × Nat),
    batchGo fetch m qs acc tot = .ok res →
    res.2 = tot + (qs.map (batchCountSpec fetch m)).sum
  | [], acc, tot, res, h => by
    simp only [batchGo, Except.ok.injEq] at h
    subst h
    simp
  | q :: qs, acc, tot, res, h => by
    simp only [batchGo] at h
    cases hb : batchQueryItems fetch m q with
    | error e => rw [hb] at h; cases h
    | ok raw =>
      rw [hb] at h
      have hrec := batchGo_total fetch m qs _ _ res h
      have hc : batchCountSpec fetch m q = raw.length := by
        unfold batchCountSpec
        rw [hb]
      have hl : (pySort keyLe raw).length = raw.length :=
        (pySort_perm keyLe raw).length_eq
      rw [hrec, List.map_cons, List.sum_cons, hc, hl]
      omega

theorem batchGo_keys (fetch : Fetch) (m : Option Int) :
    ∀ (qs : List String) (acc : List (String × QueryResult)) (tot : Nat)
      (res : List (String × QueryResult) × Nat),
    batchGo fetch m qs acc tot = .ok res →
    ∀ k, (k ∈ acc.map Prod.fst ∨ k ∈ qs) → k ∈ res.1.map Prod.fst
  | [], acc, tot, res, h, k, hk => by
    simp only [batchGo, Except.ok.injEq] at h
    subst h
    rcases hk with hk | hk
    · exact hk
    · cases hk
  | q :: qs, acc, tot, res, h, k, hk => by
    simp only [batchGo] at h
    cases hb : batchQueryItems fetch m q with
    | error e => rw [hb] at h; cases h
    | ok raw =>
      rw [hb] at h
      apply batchGo_keys fetch m qs _ _ res h k
      rcases hk with hk | hk
      · exact .inl (dictInsert_key_mono _ _ _ _ hk)
      · rcases List.mem_cons.mp hk with rfl | hk
        · exact .inl (dictInsert_key_mem _ _ _)
        · exact .inr hk

theorem batchQueryItems_congr (fetch fetch2 : Fetch) (m : Option Int) (q : String)
    (h : fetch (pageUrl q 1) = fetch2 (pageUrl q 1)) :
    batchQueryItems fetch m q = batchQueryItems fetch2 m q := by
  unfold batchQueryItems
  rw [h]

theorem batchGo_congr (fetch fetch2 : Fetch) (m : Option Int) :
    ∀ (qs : List String) (acc : List (String × QueryResult)) (tot : Nat),
    (∀ q ∈ qs, fetch (pageUrl q 1) = fetch2 (pageUrl q 1)) →
    batchGo fetch m qs acc tot = batchGo fetch2 m qs acc tot
  | [], acc, tot, _ => rfl
  | q :: qs, acc, tot, h => by
    simp only [batchGo]
    rw [batchQueryItems_congr fetch fetch2 m q (h q (List.mem_cons_self _ _))]
    cases batchQueryItems fetch2 m q with
    | error e => rfl
    | ok raw =>
      exact batchGo_congr fetch fetch2 m qs _ _
        (fun q2 hq2 => h q2 (List.mem_cons_of_mem _ hq2))

/-- C7 counterexample: with max_results_per_query = 0 the slice bound is
`0 or 20` = 20, so a card is still processed: the claim's per-query
bound fails at this input. -/
theorem batch_zero_limit_cex :
    batch_search fetchOneCard ["q"] (some 0) =
      .ok ⟨1, 1, [("q", ⟨1, [itemV123]⟩)]⟩ ∧
    ¬ (∀ payload : BatchPayload,
        batch_search fetchOneCard ["q"] (some 0) = .ok payload →
        ∀ e ∈ payload.results, e.2.items.length ≤ (0 : Int).toNat) := by
  have h : batch_search fetchOneCard ["q"] (some 0) =
      .ok ⟨1, 1, [("q", ⟨1, [itemV123]⟩)]⟩ := by decide
  refine ⟨h, ?_⟩
  intro hall
  have h2 := hall _ h ("q", ⟨1, [itemV123]⟩) (by simp)
  simp at h2

/-- C7 (amended): /batch-search fans the single-query pipeline out over
every submitted query, fetching one result page per query (its outcome
depends only on the page-1 URLs of the queries); the results object is
keyed by the query strings; total_queries is the number of submitted
queries and total_items the sum of the per-query item counts; at most
max_results_per_query cards are processed per query when that limit is
a positive integer, and 20 when it is omitted (None) or 0, because the
slice bound is the truthiness fallback `max_results_per_query or 20`. -/
theorem batch_fanout_amended :
    (∀ (fetch : Fetch) (queries : List String) (maxRes : Option Int)
        (payload : BatchPayload),
      batch_search fetch queries maxRes = .ok payload →
      payload.total_queries = queries.length
      ∧ payload.total_items =
          (queries.map (fun q => batchCountSpec fetch maxRes q)).sum
      ∧ (∀ q ∈ queries, q ∈ payload.results.map Prod.fst)
      ∧ (∀ k ∈ payload.results.map Prod.fst, k ∈ queries)
      ∧ (∀ e ∈ payload.results, e.2.count = e.2.items.length)
      ∧ (∀ n : Int, maxRes = some n → 0 < n →
          ∀ e ∈ payload.results, e.2.items.length ≤ n.toNat)
      ∧ ((maxRes = none ∨ maxRes = some 0) →
          ∀ e ∈ payload.results, e.2.items.length ≤ 20))
    ∧ (∀ (fetch fetch2 : Fetch) (queries : List String) (maxRes : Option Int),
      (∀ q ∈ queries, fetch (pageUrl q 1) = fetch2 (pageUrl q 1)) →
      batch_search fetch queries maxRes = batch_search fetch2 queries maxRes) := by
  constructor
  · intro fetch queries maxRes payload h
    unfold batch_search at h
    cases hb : batchGo fetch maxRes queries [] 0 with
    | error e => rw [hb] at h; cases h
    | ok res =>
      rw [hb] at h
      simp only [ApiResult.ok.injEq] at h
      subst h
      refine ⟨rfl, ?_, ?_, ?_, ?_, ?_, ?_⟩
      · simpa using batchGo_total fetch maxRes queries [] 0 res hb
      · intro q hq
        exact batchGo_keys fetch maxRes queries [] 0 res hb q (.inr hq)
      · intro k hk
        rcases List.mem_map.mp hk with ⟨e, he, rfl⟩
        rcases batchGo_entries fetch maxRes queries [] 0 res hb e he with
          h2 | ⟨q, hq, raw, _, rfl⟩
        · cases h2
        · exact hq
      · intro e he
        rcases batchGo_entries fetch maxRes queries [] 0 res hb e he with
          h2 | ⟨q, _, raw, _, rfl⟩
        · cases h2
        · rfl
      · intro n hn hpos e he
        rcases batchGo_entries fetch maxRes queries [] 0 res hb e he with
          h2 | ⟨q, _, raw, hraw, rfl⟩
        · cases h2
        · subst hn
          have := batchQueryItems_len_pos fetch n q raw hpos hraw
          calc (pySort keyLe raw).length = raw.length :=
                (pySort_perm keyLe raw).length_eq
            _ ≤ n.toNat := this
      · intro hm e he
        rcases batchGo_entries fetch maxRes queries [] 0 res hb e he with
          h2 | ⟨q, _, raw, hraw, rfl⟩
        · cases h2
        · have := batchQueryItems_len_default fetch maxRes q raw hm hraw
          calc (pySort keyLe raw).length = raw.length :=
                (pySort_perm keyLe raw).length_eq
            _ ≤ 20 := this
  · intro fetch fetch2 queries maxRes h
    unfold batch_search
    rw [batchGo_congr fetch fetch2 maxRes queries [] 0 h]

/-- A closed instance for C7: the amended statement at the
counterexample input. -/
theorem batch_fanout_amended_witness :
    batch_search fetchOneCard ["q"] (some 0) =
      .ok ⟨1, 1, [("q", ⟨1, [itemV123]⟩)]⟩ ∧
    (⟨1, 1, [("q", ⟨1, [itemV123]⟩)]⟩ : BatchPayload).total_queries =
      (["q"] : List String).length := by
  have h : batch_search fetchOneCard ["q"] (some 0) =
      .ok ⟨1, 1, [("q", ⟨1, [itemV123]⟩)]⟩ := by decide
  exact ⟨h, (batch_fanout_amended.1 fetchOneCard ["q"] (some 0) _ h).1⟩

/-! ## C5 -/

/-- The nested style-term/furniture-type loops are one fold over the
cross product, in loop order. -/
theorem styleCategoryItems_cross (fetch : Fetch) :
    ∀ (sts fts : List String) (st0 : List String × List StyleItem),
    sts.foldl
      (fun st sterm =>
        fts.foldl (fun st2 ftype => styleSearchStep fetch sterm ftype st2) st)
      st0 =
    (styleCross sts fts).foldl (fun st q => styleSearchStep fetch q.1 q.2 st) st0
  | [], fts, st0 => by simp [styleCross]
  | s :: sts, fts, st0 => by
    simp only [styleCross, List.flatMap_cons, List.foldl_cons, List.foldl_append,
      List.foldl_map]
    exact styleCategoryItems_cross fetch sts fts _

/-- One style search processes at most 3 cards, so it adds at most 3
items. -/
theorem styleSearchStep_len (fetch : Fetch) (sterm ftype : String)
    (st : List String × List StyleItem) :
    (styleSearchStep fetch sterm ftype st).2.length ≤ st.2.length + 3 := by
  unfold styleSearchStep
  dsimp only
  cases hf : fetch (pageUrl (sterm ++ " " ++ ftype) 1) with
  | error e => simp
  | ok pg =>
    dsimp only
    have h1 := foldl_dedup_len (buildItemStyle sterm ftype) StyleItem.id
      ((selectCards pg altSelectorsStyle).take 3) st
    have h2 : ((selectCards pg altSelectorsStyle).take 3).length ≤ 3 :=
      List.length_take_le _ _
    omega

/-- One style search consults the site only at the page-1 URL of the
query "style_term furniture_type". -/
theorem styleSearchStep_congr (fetch fetch2 : Fetch) (sterm ftype : String)
    (st : List String × List StyleItem)
    (h : fetch (pageUrl (sterm ++ " " ++ ftype) 1) =
      fetch2 (pageUrl (sterm ++ " " ++ ftype) 1)) :
    styleSearchStep fetch sterm ftype st = styleSearchStep fetch2 sterm ftype st := by
  unfold styleSearchStep
  dsimp only
  rw [h]

/-- A style search preserves the dedup invariant of the category
state. -/
theorem styleSearchStep_inv (fetch : Fetch) (sterm ftype : String)
    (st : List String × List StyleItem)
    (h1 : (st.2.map StyleItem.id).Nodup) (h2 : ∀ a ∈ st.2, a.id ∈ st.1) :
    ((styleSearchStep fetch sterm ftype st).2.map StyleItem.id).Nodup ∧
      ∀ a ∈ (styleSearchStep fetch sterm ftype st).2,
        a.id ∈ (styleSearchStep fetch sterm ftype st).1 := by
  unfold styleSearchStep
  dsimp only
  cases hf : fetch (pageUrl (sterm ++ " " ++ ftype) 1) with
  | error e => exact ⟨h1, h2⟩
  | ok pg =>
    exact foldl_dedup_inv (buildItemStyle sterm ftype) StyleItem.id _ st h1 h2

theorem crossFold_inv (fetch : Fetch) :
    ∀ (l : List (String × String)) (st : List String × List StyleItem),
    (st.2.map StyleItem.id).Nodup → (∀ a ∈ st.2, a.id ∈ st.1) →
    (((l.foldl (fun st q => styleSearchStep fetch q.1 q.2 st) st).2.map
        StyleItem.id).Nodup ∧
      ∀ a ∈ (l.foldl (fun st q => styleSearchStep fetch q.1 q.2 st) st).2,
        a.id ∈ (l.foldl (fun st q => styleSearchStep fetch q.1 q.2 st) st).1)
  | [], st, h1, h2 => ⟨h1, h2⟩
  | q :: l, st, h1, h2 => by
    have h := styleSearchStep_inv fetch q.1 q.2 st h1 h2
    simpa using crossFold_inv fetch l (styleSearchStep fetch q.1 q.2 st) h.1 h.2

/-- The items of a category carry pairwise-distinct ids. -/
theorem styleCategoryItems_nodup (fetch : Fetch) (sts fts : List String) :
    ((styleCategoryItems fetch sts fts).map StyleItem.id).Nodup := by
  unfold styleCategoryItems
  rw [styleCategoryItems_cross fetch sts fts ([], [])]
  exact (crossFold_inv fetch (styleCross sts fts) ([], []) (by simp) (by simp)).1

/-- Every entry of the built collection is a non-empty category, sorted
and truncated to 6. -/
theorem styleCollectionBuild_entries (fetch : Fetch) (sts : List String) :
    ∀ (cfts : List (String × List String)) (acc : List (String × List StyleItem)),
    ∀ e ∈ cfts.foldl
      (fun coll cft =>
        let category_items := styleCategoryItems fetch sts cft.2
        if category_items.isEmpty then coll
        else dictInsert cft.1 ((pySort keyLeS category_items).take 6) coll)
      acc,
    e ∈ acc ∨ ∃ cft ∈ cfts,
      ¬ (styleCategoryItems fetch sts cft.2).isEmpty = true ∧
      e = (cft.1, (pySort keyLeS (styleCategoryItems fetch sts cft.2)).take 6)
  | [], acc, e, he => .inl he
  | cft :: cfts, acc, e, he => by
    simp only [List.foldl_cons] at he
    rcases styleCollectionBuild_entries fetch sts cfts _ e he with h2 | ⟨c2, hc2, h3, h4⟩
    · by_cases hempty : (styleCategoryItems fetch sts cft.2).isEmpty = true
      · rw [if_pos hempty] at h2
        exact .inl h2
      · rw [if_neg hempty] at h2
        rcases dictInsert_mem _ _ _ _ h2 with h3 | h3
        · exact .inl h3
        · exact .inr ⟨cft, List.mem_cons_self _ _, hempty, h3⟩
    · exact .inr ⟨c2, List.mem_cons_of_mem _ hc2, h3, h4⟩

/-- C5: /style-collection cross-produces the style's search terms with
each category's furniture types (query "style_term furniture_type", one
page per search), processes at most 3 cards per search, deduplicates
ids within a category, keeps only non-empty categories price-sorted and
truncated to 6 items, and rejects an unknown style with an error object
listing the available styles. -/
theorem style_collection_spec (fetch : Fetch) (style : String) :
    (style_patterns.lookup (pyLower style) = none →
      get_style_collection fetch style =
        .unsupported ("Style \x27" ++ style ++ "\x27 not supported")
          ["mid century", "vintage", "industrial", "scandi"])
    ∧ (∀ pat, style_patterns.lookup (pyLower style) = some pat →
        get_style_collection fetch style =
          .ok style (styleCollectionBuild fetch pat).length
            (styleCollectionBuild fetch pat)
        ∧ (∀ (sts fts : List String),
            styleCategoryItems fetch sts fts =
              ((styleCross sts fts).foldl
                (fun st q => styleSearchStep fetch q.1 q.2 st) ([], [])).2)
        ∧ (∀ (sterm ftype : String) (st : List String × List StyleItem),
            (styleSearchStep fetch sterm ftype st).2.length ≤ st.2.length + 3
            ∧ ∀ fetch2 : Fetch,
              fetch (pageUrl (sterm ++ " " ++ ftype) 1) =
                fetch2 (pageUrl (sterm ++ " " ++ ftype) 1) →
              styleSearchStep fetch sterm ftype st =
                styleSearchStep fetch2 sterm ftype st)
        ∧ (∀ (cat : String) (items : List StyleItem),
            (cat, items) ∈ styleCollectionBuild fetch pat →
            items ≠ [] ∧ items.length ≤ 6 ∧
              (items.map StyleItem.id).Nodup ∧ items.Pairwise sitemLe)) := by
  constructor
  · intro hl
    unfold get_style_collection
    dsimp only
    rw [hl]
    rfl
  · intro pat hl
    refine ⟨?_, ?_, ?_, ?_⟩
    · unfold get_style_collection
      dsimp only
      rw [hl]
    · intro sts fts
      unfold styleCategoryItems
      rw [styleCategoryItems_cross fetch sts fts ([], [])]
    · intro sterm ftype st
      exact ⟨styleSearchStep_len fetch sterm ftype st,
        fun fetch2 h => styleSearchStep_congr fetch fetch2 sterm ftype st h⟩
    · intro cat items he
      rcases styleCollectionBuild_entries fetch pat.search_terms
          pat.furniture_types [] (cat, items) he with h2 | ⟨cft, _, hne, heq⟩
      · cases h2
      · have hitems : items =
            (pySort keyLeS (styleCategoryItems fetch pat.search_terms cft.2)).take 6 := by
          exact congrArg Prod.snd heq
        have hcatne : styleCategoryItems fetch pat.search_terms cft.2 ≠ [] := by
          intro hc
          exact hne (by rw [hc]; rfl)
        have hperm := pySort_perm keyLeS (styleCategoryItems fetch pat.search_terms cft.2)
        refine ⟨?_, ?_, ?_, ?_⟩
        · rw [hitems]
          intro htake
          have hlen := congrArg List.length htake
          rw [List.length_take, hperm.length_eq, List.length_nil] at hlen
          have hpos : 0 < (styleCategoryItems fetch pat.search_terms cft.2).length :=
            List.length_pos.mpr hcatne
          omega
        · rw [hitems]
          exact List.length_take_le _ _
        · rw [hitems]
          have hnodup := styleCategoryItems_nodup fetch pat.search_terms cft.2
          have hsorted_nodup : ((pySort keyLeS
              (styleCategoryItems fetch pat.search_terms cft.2)).map
                StyleItem.id).Nodup :=
            ((hperm.map StyleItem.id).nodup_iff).mpr hnodup
          exact ((List.take_sublist 6 _).map StyleItem.id).nodup hsorted_nodup
        · rw [hitems]
          exact (pySort_keyLeS_sorted _).sublist (List.take_sublist 6 _)

/-- A closed instance for C5: an unsupported style yields the error
object with the available styles. -/
theorem style_collection_spec_witness :
    get_style_collection (fun _ => .ok ⟨fun _ => []⟩) "gothic" =
      .unsupported "Style \x27gothic\x27 not supported"
        ["mid century", "vintage", "industrial", "scandi"] :=
  (style_collection_spec (fun _ => .ok ⟨fun _ => []⟩) "gothic").1 (by decide)

/-! ## C6 -/

/-- C6 counterexample: in scraper.py the price selector list starts
with the class selector, so on a card where both the class and the
data-testid price selectors match, the class element supplies the
field: the data-testid selector is not tried first. -/
theorem selector_order_cex :
    (cardTwoPrices.sel "[data-testid*=\x22price\x22]").isSome = true ∧
    scraperPriceEl cardTwoPrices = some subPriceClassEl ∧
    scraperPriceEl cardTwoPrices ≠ cardTwoPrices.sel "[data-testid*=\x22price\x22]" :=
  ⟨by decide, by decide, by decide⟩

/-- C6 (amended): the card cascade tries li.mp-Listing first and the
alternatives in order, stopping at the first that matches; in main.py
each field chain tries its SEL selector first and the first matching
element supplies the field; in scraper.py each field probes its own
selector list in the listed order, which puts h3 first for the title
and the class selector before the data-testid one for price, location
and description; a card without link element is skipped entirely. -/
theorem selector_cascade_amended :
    (∀ (pg : Page) (alts : List String),
      (pg.select SEL_card ≠ [] → selectCards pg alts = pg.select SEL_card)
      ∧ (pg.select SEL_card = [] → selectCards pg alts = firstNonemptySelect pg alts))
    ∧ (∀ (pg : Page) (s : String) (rest : List String),
      (pg.select s = [] → firstNonemptySelect pg (s :: rest) = firstNonemptySelect pg rest)
      ∧ (pg.select s ≠ [] → firstNonemptySelect pg (s :: rest) = pg.select s))
    ∧ (∀ (c : Card) (s : String) (rest : List String),
      (c.sel s = none → firstSel c (s :: rest) = firstSel c rest)
      ∧ (∀ e, c.sel s = some e → firstSel c (s :: rest) = some e))
    ∧ (titleSelsMain.head? = some SEL_title ∧ priceSelsMain.head? = some SEL_price
       ∧ locSelsMain.head? = some SEL_location ∧ dateSelsMain.head? = some SEL_date
       ∧ imgSelsMain.head? = some SEL_image ∧ descSelsMain.head? = some SEL_desc
       ∧ titleSelsSmart.head? = some SEL_title)
    ∧ (∀ c : Card, scraperTitleEl c = firstSel c scraperTitleSelectors
        ∧ scraperPriceEl c = firstSel c scraperPriceSelectors
        ∧ scraperLocationEl c = firstSel c scraperLocationSelectors
        ∧ scraperDescEl c = firstSel c scraperDescSelectors)
    ∧ (scraperTitleSelectors.head? = some "h3"
       ∧ scraperPriceSelectors.head? = some ".mp-listing-price"
       ∧ scraperLocationSelectors.head? = some ".mp-listing-location"
       ∧ scraperDescSelectors.head? = some ".mp-listing-description")
    ∧ (∀ c : Card, c.sel SEL_link = none →
        buildItemMain c = none ∧ buildItemSmart c = none ∧
        (∀ sterm ftype : String, buildItemStyle sterm ftype c = none))
    ∧ (∀ (c : Card) (st : List String × List Item), c.sel SEL_link = none →
        dedupStep buildItemMain Item.id st c = st) := by
  refine ⟨?_, ?_, ?_, ?_, ?_, ?_, ?_, ?_⟩
  · intro pg alts
    constructor
    · intro h
      unfold selectCards
      rw [if_neg (by simpa [List.isEmpty_iff] using h)]
    · intro h
      unfold selectCards
      rw [if_pos (by simpa [List.isEmpty_iff] using h)]
  · intro pg s rest
    constructor
    · intro h
      simp only [firstNonemptySelect]
      rw [if_pos (by simpa [List.isEmpty_iff] using h)]
    · intro h
      simp only [firstNonemptySelect]
      rw [if_neg (by simpa [List.isEmpty_iff] using h)]
  · intro c s rest
    constructor
    · intro h
      simp only [firstSel]
      rw [h]
    · intro e h
      simp only [firstSel]
      rw [h]
  · exact ⟨rfl, rfl, rfl, rfl, rfl, rfl, rfl⟩
  · intro c
    exact ⟨rfl, rfl, rfl, rfl⟩
  · exact ⟨rfl, rfl, rfl, rfl⟩
  · intro c h
    refine ⟨?_, ?_, ?_⟩
    · unfold buildItemMain
      rw [h]
    · unfold buildItemSmart
      rw [h]
    · intro sterm ftype
      unfold buildItemStyle
      rw [h]
  · intro c st h
    have hb : buildItemMain c = none := by
      unfold buildItemMain
      rw [h]
    unfold dedupStep
    rw [hb]

/-- A closed instance for C6 (amended): a page whose primary selector
matches keeps exactly those cards. -/
theorem selector_cascade_amended_witness :
    selectCards pageOneCard altSelectorsMain = pageOneCard.select SEL_card :=
  (selector_cascade_amended.1 pageOneCard altSelectorsMain).1
    (by simp [pageOneCard])

/-! ## C4 -/

theorem strContains_iff_sub (hay nd : String) :
    strContains hay nd = true ↔ nd.data <:+: hay.data := by
  unfold strContains
  rw [List.any_eq_true]
  constructor
  · rintro ⟨t, ht, hpre⟩
    rw [List.mem_tails] at ht
    rw [List.isPrefixOf_iff_prefix] at hpre
    exact List.infix_iff_prefix_suffix.mpr ⟨t, hpre, ht⟩
  · intro h
    rcases List.infix_iff_prefix_suffix.mp h with ⟨t, hpre, hsuf⟩
    exact ⟨t, (List.mem_tails _ _).mpr hsuf, List.isPrefixOf_iff_prefix.mpr hpre⟩

theorem strData_append (s t : String) : (s ++ t).data = s.data ++ t.data := rfl

theorem joinSpace_mem_sub (x : String) :
    ∀ l, x ∈ l → x.data <:+: (joinSpace l).data
  | [], h => absurd h (List.not_mem_nil x)
  | [a], h => by
    rcases List.mem_singleton.mp h with rfl
    exact List.infix_refl _
  | a :: b :: rest, h => by
    rcases List.mem_cons.mp h with rfl | h2
    · have h1 : x.data <+: ((x ++ " ") ++ joinSpace (b :: rest)).data := by
        rw [strData_append, strData_append, List.append_assoc]
        exact List.prefix_append _ _
      exact h1.isInfix
    · have ih := joinSpace_mem_sub x (b :: rest) h2
      have h2s : (joinSpace (b :: rest)).data <:+
          ((a ++ " ") ++ joinSpace (b :: rest)).data := by
        rw [strData_append]
        exact List.suffix_append _ _
      exact ih.trans h2s.isInfix

/-- A member of the joined parts occurs in the joined string. -/
theorem mem_joinSpace_contains (x : String) (l : List String) (h : x ∈ l) :
    strContains (joinSpace l) x = true :=
  (strContains_iff_sub _ _).mpr (joinSpace_mem_sub x l h)

theorem styleTranslations_singleton : ∀ p ∈ styleTranslations, p.2.length = 1 := by
  decide

theorem stdParts_furniture_mem (query : String) (k : String) (ds : List String)
    (h : furnitureTranslations.find? (fun p => strContains (pyLower query) p.1) =
      some (k, ds)) : ds.headD "" ∈ (stdParts query).take 3 := by
  unfold stdParts
  dsimp only
  rw [h]
  rw [if_neg (by simp [List.isEmpty_iff])]
  simp

theorem stdParts_style_mem (query : String) (k : String) (ds : List String)
    (h : styleTranslations.find? (fun p => strContains (pyLower query) p.1) =
      some (k, ds)) : ∀ d ∈ ds, d ∈ (stdParts query).take 3 := by
  intro d hd
  have hm := List.mem_of_find?_eq_some h
  have hlen : ds.length = 1 := styleTranslations_singleton (k, ds) hm
  obtain ⟨a, rfl⟩ := List.length_eq_one.mp hlen
  rcases List.mem_singleton.mp hd with rfl
  unfold stdParts
  dsimp only
  rw [h]
  cases hF : furnitureTranslations.find? (fun p => strContains (pyLower query) p.1) with
  | none =>
    dsimp only
    rw [if_neg (by simp [List.isEmpty_iff])]
    simp
  | some p =>
    dsimp only
    rw [if_neg (by simp [List.isEmpty_iff])]
    simp

theorem stdParts_color_mem (query : String) (k : String) (ds : List String)
    (h : colorTranslations.find? (fun p => strContains (pyLower query) p.1) =
      some (k, ds)) : ds.headD "" ∈ (stdParts query).take 3 := by
  unfold stdParts
  dsimp only
  rw [h]
  cases hF : furnitureTranslations.find? (fun p => strContains (pyLower query) p.1) with
  | none =>
    cases hS : styleTranslations.find? (fun p => strContains (pyLower query) p.1) with
    | none =>
      dsimp only
      rw [if_neg (by simp [List.isEmpty_iff])]
      simp
    | some p =>
      have hm := List.mem_of_find?_eq_some hS
      have hlen : p.2.length = 1 := styleTranslations_singleton p hm
      obtain ⟨a, ha⟩ := List.length_eq_one.mp hlen
      dsimp only
      rw [ha]
      rw [if_neg (by simp [List.isEmpty_iff])]
      simp
  | some p =>
    cases hS : styleTranslations.find? (fun p => strContains (pyLower query) p.1) with
    | none =>
      dsimp only
      rw [if_neg (by simp [List.isEmpty_iff])]
      simp
    | some p2 =>
      have hm := List.mem_of_find?_eq_some hS
      have hlen : p2.2.length = 1 := styleTranslations_singleton p2 hm
      obtain ⟨a, ha⟩ := List.length_eq_one.mp hlen
      dsimp only
      rw [ha]
      rw [if_neg (by simp [List.isEmpty_iff])]
      simp

/-- C4 counterexample: the query "industrial style chair" contains the
furniture term chair, whose first matched Dutch translation is stoel,
but the special-case branch for "industrial style" produces the search
terms "industrieel staal", which do not include stoel. -/
theorem nlq_translation_cex :
    strContains (pyLower "industrial style chair") "chair" = true ∧
    furnitureTranslations.find?
      (fun p => strContains (pyLower "industrial style chair") p.1) =
      some ("chair", ["stoel", "stoelen"]) ∧
    (parse_natural_language_query "industrial style chair").search_terms =
      "industrieel staal" ∧
    strContains
      (parse_natural_language_query "industrial style chair").search_terms
      "stoel" = false :=
  ⟨by decide, by decide, by decide, by decide⟩

/-- C4 (amended): outside the two special-case branches (a query whose
lower-cased text contains "design lamp" gets the fixed terms
"hanglamp vloerlamp", one containing "industrial style" gets
"industrieel staal"), the search terms join at most the first 3 parts:
the first Dutch translation of the first matching furniture term, the
Dutch terms of the first matching style and the first Dutch
translation of the first matching color all appear in the search
terms, and with no dictionary or room-name match the original query
itself is the search term. -/
theorem nlq_translation_amended (query : String) :
    (strContains (pyLower query) "design lamp" = true →
      (parse_natural_language_query query).search_terms = "hanglamp vloerlamp")
    ∧ (strContains (pyLower query) "design lamp" = false →
        strContains (pyLower query) "industrial style" = true →
      (parse_natural_language_query query).search_terms = "industrieel staal")
    ∧ (strContains (pyLower query) "design lamp" = false →
        strContains (pyLower query) "industrial style" = false →
      (parse_natural_language_query query).search_terms =
        joinSpace ((stdParts query).take 3)
      ∧ ((stdParts query).take 3).length ≤ 3
      ∧ (∀ (k : String) (ds : List String),
          furnitureTranslations.find?
            (fun p => strContains (pyLower query) p.1) = some (k, ds) →
          strContains (parse_natural_language_query query).search_terms
            (ds.headD "") = true)
      ∧ (∀ (k : String) (ds : List String),
          styleTranslations.find?
            (fun p => strContains (pyLower query) p.1) = some (k, ds) →
          ∀ d ∈ ds,
            strContains (parse_natural_language_query query).search_terms d = true)
      ∧ (∀ (k : String) (ds : List String),
          colorTranslations.find?
            (fun p => strContains (pyLower query) p.1) = some (k, ds) →
          strContains (parse_natural_language_query query).search_terms
            (ds.headD "") = true)
      ∧ (furnitureTranslations.find?
            (fun p => strContains (pyLower query) p.1) = none →
          styleTranslations.find?
            (fun p => strContains (pyLower query) p.1) = none →
          colorTranslations.find?
            (fun p => strContains (pyLower query) p.1) = none →
          strContains (pyLower query) "living room" = false →
          strContains (pyLower query) "bedroom" = false →
          strContains (pyLower query) "dining room" = false →
          (parse_natural_language_query query).search_terms = query)) := by
  refine ⟨?_, ?_, ?_⟩
  · intro hd
    unfold parse_natural_language_query
    dsimp only
    rw [if_pos hd]
    rfl
  · intro hd hi
    have hd2 : ¬ strContains (pyLower query) "design lamp" = true := by
      rw [hd]
      exact Bool.false_ne_true
    unfold parse_natural_language_query
    dsimp only
    rw [if_neg hd2, if_pos hi]
    rfl
  · intro hd hi
    have hd2 : ¬ strContains (pyLower query) "design lamp" = true := by
      rw [hd]
      exact Bool.false_ne_true
    have hi2 : ¬ strContains (pyLower query) "industrial style" = true := by
      rw [hi]
      exact Bool.false_ne_true
    have key : (parse_natural_language_query query).search_terms =
        joinSpace ((stdParts query).take 3) := by
      unfold parse_natural_language_query
      dsimp only
      rw [if_neg hd2, if_neg hi2]
      rfl
    refine ⟨key, List.length_take_le _ _, ?_, ?_, ?_, ?_⟩
    · intro k ds h
      rw [key]
      exact mem_joinSpace_contains _ _ (stdParts_furniture_mem query k ds h)
    · intro k ds h d hd3
      rw [key]
      exact mem_joinSpace_contains _ _ (stdParts_style_mem query k ds h d hd3)
    · intro k ds h
      rw [key]
      exact mem_joinSpace_contains _ _ (stdParts_color_mem query k ds h)
    · intro hf hs hc hr1 hr2 hr3
      rw [key]
      have hr1b : ¬ strContains (pyLower query) "living room" = true := by
        rw [hr1]
        exact Bool.false_ne_true
      have hr2b : ¬ strContains (pyLower query) "bedroom" = true := by
        rw [hr2]
        exact Bool.false_ne_true
      have hr3b : ¬ strContains (pyLower query) "dining room" = true := by
        rw [hr3]
        exact Bool.false_ne_true
      unfold stdParts
      dsimp only
      rw [hf, hs, hc]
      rw [if_pos (by simp), if_neg hr1b, if_neg hr2b, if_neg hr3b]
      rfl

/-- A closed instance for C4 (amended): a standard-path query keeps its
furniture, style and color translations. -/
theorem nlq_translation_amended_witness :
    (parse_natural_language_query "vintage red chair").search_terms =
      joinSpace ((stdParts "vintage red chair").take 3) ∧
    (parse_natural_language_query "vintage red chair").search_terms =
      "stoel vintage rood" :=
  ⟨((nlq_translation_amended "vintage red chair").2.2 (by decide) (by decide)).1,
    by decide⟩

/-! ## C3: character-level facts about toLower and the price class -/

theorem uint32_le_iff (a b : UInt32) : a ≤ b ↔ a.toNat ≤ b.toNat := by
  rw [UInt32.le_def, BitVec.le_def]
  rfl

theorem char_toNat_ofNat (n : Nat) (h : n < 55296) : (Char.ofNat n).toNat = n := by
  have hv : n.isValidChar := Or.inl h
  rw [Char.ofNat, dif_pos hv]
  simp [Char.ofNatAux, Char.toNat, UInt32.toNat]

theorem char_eq_iff_toNat (c d : Char) : c = d ↔ c.toNat = d.toNat := by
  constructor
  · rintro rfl
    rfl
  · intro h
    apply Char.ext
    exact UInt32.toNat.inj h

theorem isDigit_iff (c : Char) : c.isDigit = true ↔ 48 ≤ c.toNat ∧ c.toNat ≤ 57 := by
  unfold Char.isDigit
  rw [Bool.and_eq_true, decide_eq_true_eq, decide_eq_true_eq, ge_iff_le,
    uint32_le_iff, uint32_le_iff]
  exact Iff.rfl

theorem char_beq_iff_toNat (c d : Char) : (c == d) = true ↔ c.toNat = d.toNat := by
  rw [beq_iff_eq]
  exact char_eq_iff_toNat c d

theorem isPriceChar_iff (c : Char) :
    isPriceChar c = true ↔ (48 ≤ c.toNat ∧ c.toNat ≤ 57) ∨ c.toNat = 46 ∨ c.toNat = 44 := by
  unfold isPriceChar
  rw [Bool.or_eq_true, Bool.or_eq_true, isDigit_iff, char_beq_iff_toNat, char_beq_iff_toNat,
    show ('.').toNat = 46 from rfl, show (',').toNat = 44 from rfl]
  tauto

theorem toLower_of_range (c : Char) (h : 65 ≤ c.toNat ∧ c.toNat ≤ 90) :
    (Char.toLower c).toNat = c.toNat + 32 := by
  unfold Char.toLower
  dsimp only
  rw [if_pos (by exact ⟨h.1, h.2⟩)]
  exact char_toNat_ofNat _ (by omega)

theorem toLower_of_out (c : Char) (h : ¬ (65 ≤ c.toNat ∧ c.toNat ≤ 90)) :
    Char.toLower c = c := by
  unfold Char.toLower
  dsimp only
  rw [if_neg (by exact fun hc => h ⟨hc.1, hc.2⟩)]

theorem isPriceChar_toLower (c : Char) : isPriceChar (Char.toLower c) = isPriceChar c := by
  by_cases h : 65 ≤ c.toNat ∧ c.toNat ≤ 90
  · have h1 : isPriceChar c = false := by
      rw [← Bool.not_eq_true, isPriceChar_iff]
      omega
    have h2 : isPriceChar (Char.toLower c) = false := by
      rw [← Bool.not_eq_true, isPriceChar_iff, toLower_of_range c h]
      omega
    rw [h1, h2]
  · rw [toLower_of_out c h]

theorem toLower_price_fix (c : Char) (h : isPriceChar c = true) : Char.toLower c = c := by
  rw [isPriceChar_iff] at h
  exact toLower_of_out c (by omega)

theorem isWhitespace_iff (c : Char) :
    c.isWhitespace = true ↔ c.toNat = 32 ∨ c.toNat = 9 ∨ c.toNat = 13 ∨ c.toNat = 10 := by
  unfold Char.isWhitespace
  rw [Bool.or_eq_true, Bool.or_eq_true, Bool.or_eq_true, decide_eq_true_eq,
    decide_eq_true_eq, decide_eq_true_eq, decide_eq_true_eq,
    char_eq_iff_toNat, char_eq_iff_toNat, char_eq_iff_toNat, char_eq_iff_toNat,
    show (' ').toNat = 32 from rfl, show ('\t').toNat = 9 from rfl,
    show ('\x0d').toNat = 13 from rfl, show ('\n').toNat = 10 from rfl]
  tauto

theorem toLower_ws_fix (c : Char) (h : c.isWhitespace = true) : Char.toLower c = c := by
  rw [isWhitespace_iff] at h
  exact toLower_of_out c (by omega)

theorem ws_not_price (c : Char) (h : c.isWhitespace = true) : isPriceChar c = false := by
  rw [isWhitespace_iff] at h
  rw [← Bool.not_eq_true, isPriceChar_iff]
  omega

/-! ## C3: invariance of the price runs and the blacklist check -/

theorem runsByAux_toLower : ∀ (cs acc : List Char),
    runsByAux isPriceChar (cs.map Char.toLower) acc = runsByAux isPriceChar cs acc
  | [], _ => rfl
  | c :: cs, acc => by
    simp only [List.map_cons, runsByAux]
    rw [isPriceChar_toLower]
    by_cases h : isPriceChar c = true
    · rw [if_pos h, if_pos h, toLower_price_fix c h]
      exact runsByAux_toLower cs _
    · rw [if_neg h, if_neg h]
      by_cases ha : acc.isEmpty = true
      · rw [if_pos ha, if_pos ha]
        exact runsByAux_toLower cs []
      · rw [if_neg ha, if_neg ha, runsByAux_toLower cs []]

theorem priceRuns_toLower (cs : List Char) :
    priceRuns (cs.map Char.toLower) = priceRuns cs :=
  runsByAux_toLower cs []

theorem runsByAux_nonprice (ys : List Char) (h : ∀ c ∈ ys, isPriceChar c = false) :
    ∀ acc, runsByAux isPriceChar ys acc = if acc.isEmpty then [] else [acc.reverse] := by
  induction ys with
  | nil => intro acc; rfl
  | cons c ys ih =>
    intro acc
    have hc : ¬ isPriceChar c = true := by
      rw [h c (List.mem_cons_self _ _)]
      exact Bool.false_ne_true
    simp only [runsByAux]
    rw [if_neg hc]
    have ih2 := ih (fun c2 hc2 => h c2 (List.mem_cons_of_mem _ hc2))
    by_cases ha : acc.isEmpty = true
    · rw [if_pos ha, ih2 [], if_pos ha]
      rfl
    · rw [if_neg ha, ih2 [], if_neg ha]
      rfl

theorem runsByAux_append_nonprice (ys : List Char)
    (h : ∀ c ∈ ys, isPriceChar c = false) :
    ∀ (xs acc : List Char),
    runsByAux isPriceChar (xs ++ ys) acc = runsByAux isPriceChar xs acc
  | [], acc => by
    rw [List.nil_append, runsByAux_nonprice ys h acc]
    rfl
  | c :: xs, acc => by
    simp only [List.cons_append, runsByAux]
    by_cases hc : isPriceChar c = true
    · rw [if_pos hc, if_pos hc]
      exact runsByAux_append_nonprice ys h xs _
    · rw [if_neg hc, if_neg hc]
      by_cases ha : acc.isEmpty = true
      · rw [if_pos ha, if_pos ha]
        exact runsByAux_append_nonprice ys h xs []
      · rw [if_neg ha, if_neg ha]
        exact congrArg (acc.reverse :: ·) (runsByAux_append_nonprice ys h xs [])

theorem runsByAux_ws_prefix (pre : List Char)
    (h : ∀ c ∈ pre, isPriceChar c = false) :
    ∀ l, runsByAux isPriceChar (pre ++ l) [] = runsByAux isPriceChar l [] := by
  induction pre with
  | nil => intro l; rfl
  | cons c pre ih =>
    intro l
    have hc : ¬ isPriceChar c = true := by
      rw [h c (List.mem_cons_self _ _)]
      exact Bool.false_ne_true
    simp only [List.cons_append, runsByAux]
    have he : ([] : List Char).isEmpty = true := rfl
    rw [if_neg hc, if_pos he]
    exact ih (fun c2 hc2 => h c2 (List.mem_cons_of_mem _ hc2)) l

/-- The input decomposes as whitespace prefix, stripped core, whitespace
suffix. -/
theorem pyStrip_decomp (cs : List Char) :
    ∃ pre suf, (∀ c ∈ pre, c.isWhitespace = true) ∧
      (∀ c ∈ suf, c.isWhitespace = true) ∧
      cs = pre ++ pyStrip cs ++ suf := by
  refine ⟨cs.takeWhile Char.isWhitespace,
    ((cs.dropWhile Char.isWhitespace).reverse.takeWhile Char.isWhitespace).reverse,
    ?_, ?_, ?_⟩
  · intro c hc
    exact List.mem_takeWhile_imp hc
  · intro c hc
    rw [List.mem_reverse] at hc
    exact List.mem_takeWhile_imp hc
  · rw [List.append_assoc]
    conv_lhs => rw [← List.takeWhile_append_dropWhile (p := Char.isWhitespace) (l := cs)]
    congr 1
    conv_lhs => rw [← List.reverse_reverse (cs.dropWhile Char.isWhitespace),
      ← List.takeWhile_append_dropWhile (p := Char.isWhitespace)
        (l := (cs.dropWhile Char.isWhitespace).reverse)]
    rw [List.reverse_append]
    rfl

theorem priceRuns_strip (cs : List Char) : priceRuns (pyStrip cs) = priceRuns cs := by
  obtain ⟨pre, suf, hpre, hsuf, hdecomp⟩ := pyStrip_decomp cs
  conv_rhs => rw [hdecomp]
  unfold priceRuns runsBy
  rw [List.append_assoc,
    runsByAux_ws_prefix pre (fun c hc => ws_not_price c (hpre c hc))]
  rw [runsByAux_append_nonprice suf (fun c hc => ws_not_price c (hsuf c hc))]

theorem map_toLower_ws (l : List Char) (h : ∀ c ∈ l, c.isWhitespace = true) :
    l.map Char.toLower = l := by
  induction l with
  | nil => rfl
  | cons c cs ih =>
    simp only [List.map_cons]
    rw [toLower_ws_fix c (h c (List.mem_cons_self _ _)),
      ih (fun c2 hc2 => h c2 (List.mem_cons_of_mem _ hc2))]

theorem infix_drop_wsPre (x0 : Char) (xt : List Char)
    (hh : x0.isWhitespace = false) :
    ∀ (pre : List Char), (∀ c ∈ pre, c.isWhitespace = true) →
    ∀ rest, (x0 :: xt) <:+: pre ++ rest → (x0 :: xt) <:+: rest := by
  intro pre
  induction pre with
  | nil => intro _ rest h; exact h
  | cons c pre ih =>
    intro hws rest h
    rw [List.cons_append] at h
    rcases List.infix_cons_iff.mp h with h2 | h2
    · rcases List.cons_prefix_cons.mp h2 with ⟨rfl, _⟩
      rw [hws x0 (List.mem_cons_self _ _)] at hh
      cases hh
    · exact ih (fun c2 hc2 => hws c2 (List.mem_cons_of_mem _ hc2)) rest h2

theorem infix_extend_ws (x pre core suf : List Char)
    (hx0 : x ≠ [])
    (hh : x.head?.all (fun c => !c.isWhitespace) = true)
    (hl : x.reverse.head?.all (fun c => !c.isWhitespace) = true)
    (hpre : ∀ c ∈ pre, c.isWhitespace = true)
    (hsuf : ∀ c ∈ suf, c.isWhitespace = true) :
    (x <:+: pre ++ core ++ suf) ↔ x <:+: core := by
  constructor
  · intro h
    cases hx : x with
    | nil => exact absurd hx hx0
    | cons x0 xt =>
      subst hx
      have hh2 : x0.isWhitespace = false := by
        simpa using hh
      rw [List.append_assoc] at h
      have h2 : (x0 :: xt) <:+: core ++ suf :=
        infix_drop_wsPre x0 xt hh2 pre hpre _ h
      have h3 : (x0 :: xt).reverse <:+: suf.reverse ++ core.reverse := by
        rw [← List.reverse_append]
        exact List.reverse_infix.mpr h2
      cases hr : (x0 :: xt).reverse with
      | nil =>
        have := congrArg List.length hr
        simp at this
      | cons y0 yt =>
        rw [hr] at h3 hl
        have hl2 : y0.isWhitespace = false := by
          simpa using hl
        have h4 : (y0 :: yt) <:+: core.reverse :=
          infix_drop_wsPre y0 yt hl2 suf.reverse
            (fun c hc => hsuf c (List.mem_reverse.mp hc)) _ h3
        have h5 : (x0 :: xt).reverse <:+: core.reverse := hr ▸ h4
        exact List.reverse_infix.mp h5
  · intro h
    exact h.trans (List.infix_append pre core suf)

/-- The blacklist test of parse_price on the stripped-lowered text
agrees with the test on the lowered text for a needle that does not
start or end in whitespace. -/
theorem contains_strip_lower (s nd : String) (h0 : nd.data ≠ [])
    (hh : nd.data.head?.all (fun c => !c.isWhitespace) = true)
    (hl : nd.data.reverse.head?.all (fun c => !c.isWhitespace) = true) :
    strContains ⟨(pyStrip s.data).map Char.toLower⟩ nd = strContains (pyLower s) nd := by
  obtain ⟨pre, suf, hpre, hsuf, hdecomp⟩ := pyStrip_decomp s.data
  have hmap : (pyLower s).data =
      pre ++ ((pyStrip s.data).map Char.toLower) ++ suf := by
    show s.data.map Char.toLower = _
    conv_lhs => rw [hdecomp]
    rw [List.map_append, List.map_append, map_toLower_ws pre hpre,
      map_toLower_ws suf hsuf]
  have h1 := strContains_iff_sub ⟨(pyStrip s.data).map Char.toLower⟩ nd
  have h2 := strContains_iff_sub (pyLower s) nd
  rw [hmap] at h2
  have h3 := infix_extend_ws nd.data pre ((pyStrip s.data).map Char.toLower) suf
    h0 hh hl hpre hsuf
  by_cases hb : nd.data <:+: ((pyStrip s.data).map Char.toLower)
  · rw [h1.mpr hb, h2.mpr (h3.mpr hb)]
  · have l1 : strContains ⟨(pyStrip s.data).map Char.toLower⟩ nd = false := by
      rw [← Bool.not_eq_true, h1]
      exact hb
    have l2 : strContains (pyLower s) nd = false := by
      rw [← Bool.not_eq_true, h2]
      exact fun hc => hb (h3.mp hc)
    rw [l1, l2]

/-- C3: parse_price behaves exactly as the claim states it, reading the
blacklist case-insensitively off the raw text and the first maximal
digit/dot/comma run off the raw text. -/
theorem parse_price_spec_correct :
    ∀ t, parse_price t = parse_price_spec t := by
  intro t
  cases t with
  | none => rfl
  | some s =>
    simp only [parse_price, parse_price_spec]
    by_cases hs : s = ""
    · rw [if_pos hs, if_pos hs]
    · rw [if_neg hs, if_neg hs]
      have hbl : (["bieden", "gratis", "n.o.t.k", "prijs op aanvraag"].any
          (fun x => strContains ⟨(pyStrip s.data).map Char.toLower⟩ x)) =
          (["bieden", "gratis", "n.o.t.k", "prijs op aanvraag"].any
          (fun x => strContains (pyLower s) x)) := by
        simp only [List.any_cons, List.any_nil]
        rw [contains_strip_lower s "bieden" (by decide) (by decide) (by decide),
          contains_strip_lower s "gratis" (by decide) (by decide) (by decide),
          contains_strip_lower s "n.o.t.k" (by decide) (by decide) (by decide),
          contains_strip_lower s "prijs op aanvraag" (by decide) (by decide) (by decide)]
      rw [hbl]
      by_cases hb : (["bieden", "gratis", "n.o.t.k", "prijs op aanvraag"].any
          (fun x => strContains (pyLower s) x)) = true
      · rw [if_pos hb, if_pos hb]
      · rw [if_neg hb, if_neg hb]
        have hruns : priceRuns ((pyStrip s.data).map Char.toLower) =
            priceRuns s.data := by
          rw [priceRuns_toLower, priceRuns_strip]
        rw [hruns]

/-- A closed instance illustrating C3 at the claim's example. -/
theorem parse_price_spec_correct_example :
    parse_price (some "€ 1.234,56") = parse_price_spec (some "€ 1.234,56") :=
  parse_price_spec_correct (some "€ 1.234,56")

end MP
